import Mathlib

namespace TapPowerBi

/-!
Verification of the core transformation components of the `tap-powerbi`
repository: the row flattener (`row_flattener.py`), the type mapper
(`type_mapping.py`), the TMDL table parser (`tmdl_parser.py`) and the
visual query builder (`visual_query_builder.py`), shallowly embedded in
Lean 4 together with theorems settling the specification claims.
-/
/-! ## Generic helpers -/
/-- Python `sep.join(l)` on a list of strings. -/
def joinSep (sep : String) : List String → String
  | [] => ""
  | [x] => x
  | x :: xs => x ++ sep ++ joinSep sep xs

/-- Association-list lookup with an explicit boolean equality. -/
def lookupBy (beq : α → α → Bool) : List (α × β) → α → Option β
  | [], _ => none
  | kv :: rest, key => if beq kv.1 key then some kv.2 else lookupBy beq rest key

/-- Python-dict style insert: replaces the value in place when the key is
already present (keeping its position), otherwise appends at the end. -/
def dinsertBy (beq : α → α → Bool) : List (α × β) → α → β → List (α × β)
  | [], k, v => [(k, v)]
  | kv :: rest, k, v =>
      if beq kv.1 k then (k, v) :: rest else kv :: dinsertBy beq rest k v

/-- Python `s[n:]` (slicing is by code points). -/
def pyDrop (s : String) (n : Nat) : String := String.mk (s.data.drop n)

/-- Helper for `pySplitNl`: collect the current line (reversed) while
scanning. -/
def splitNlGo (cur : List Char) : List Char → List String
  | [] => [String.mk cur.reverse]
  | c :: rest =>
      if c = '\n' then String.mk cur.reverse :: splitNlGo [] rest
      else splitNlGo (c :: cur) rest

/-- Python `s.split("\n")`: split at every newline, keeping empty pieces. -/
def pySplitNl (s : String) : List String := splitNlGo [] s.data

/-- Python `s.startswith(p)` (characterwise prefix test). -/
def pyStartsWith (s p : String) : Bool := p.data.isPrefixOf s.data

/-- Python `s.endswith(p)` (characterwise suffix test). -/
def pyEndsWith (s p : String) : Bool := p.data.isSuffixOf s.data

/-- The single-quote character (written via its code point). -/
def sqc : Char := Char.ofNat 39

/-- The single-quote as a one-character string. -/
def sq : String := String.singleton sqc

/-- The double-quote as a one-character string. -/
def dq : String := String.singleton (Char.ofNat 34)

/-! ## Row flattener (`row_flattener.py`)

The three regular expressions of the source are embedded as explicit
character-list matchers.  Each pattern is anchored (`^...$`); Python's `$`
also matches just before one trailing newline, and `.` never matches a
newline, so a key matches iff, after stripping at most one trailing
newline, it contains no newline and has the corresponding bracket shape.
-/
/-- Match `(.+)\]` at the end of the input: the whole input must be
`g ++ "]"` with `g` nonempty; returns `g` (the greedy group). -/
def groupTail (l : List Char) : Option (List Char) :=
  match l.reverse with
  | ']' :: c :: gs => some ((c :: gs).reverse)
  | _ => none

/-- Scan for `\]\.\[` as the lazy `.*?` of `_BRACKET_DOT_PATTERN` extends;
on finding `].[`, the greedy group runs to the final `]` (and if that group
would be empty, the scan backtracks past this occurrence). -/
def bdScan : List Char → Option (List Char)
  | [] => none
  | c :: rest =>
      if c = ']' then
        match rest with
        | '.' :: '[' :: tail =>
            match groupTail tail with
            | some g => some g
            | none => bdScan rest
        | _ => bdScan rest
      else bdScan rest

/-- `_BRACKET_DOT_PATTERN`: `^\[.*?\]\.\[(.+)\]$` (group value). -/
def bracketDotGroup : List Char → Option (List Char)
  | '[' :: rest => bdScan rest
  | _ => none

/-- Scan for the `\[` after the lazy `.+?` prefix of
`_TABLE_BRACKET_PATTERN`; the greedy group runs to the final `]`. -/
def tbScan : List Char → Option (List Char)
  | [] => none
  | c :: rest =>
      if c = '[' then
        match groupTail rest with
        | some g => some g
        | none => tbScan rest
      else tbScan rest

/-- `_TABLE_BRACKET_PATTERN`: `^.+?\[(.+)\]$` (group value); the prefix
`.+?` must consume at least one character. -/
def tableBracketGroup : List Char → Option (List Char)
  | _ :: rest => tbScan rest
  | [] => none

/-- `_BARE_BRACKET_PATTERN`: `^\[(.+)\]$` (group value). -/
def bareBracketGroup : List Char → Option (List Char)
  | '[' :: tail => groupTail tail
  | _ => none

/-- Strip at most one trailing newline (the position where Python's `$`
may match before the end of the string). -/
def stripTrailNl (l : List Char) : List Char :=
  match l.reverse with
  | '\n' :: rest => rest.reverse
  | _ => l

/-- Per-key normalisation of `flatten_row`: try the three patterns in
order; if none matches the key passes through unchanged. -/
def normKey (s : String) : String :=
  let t := stripTrailNl s.data
  if t.any (· = '\n') then s
  else
    match bracketDotGroup t with
    | some g => String.mk g
    | none =>
      match tableBracketGroup t with
      | some g => String.mk g
      | none =>
        match bareBracketGroup t with
        | some g => String.mk g
        | none => s

/-- `flatten_row`: rows are insertion-ordered string-keyed mappings;
writing to an existing key updates it in place (Python dict semantics). -/
def flatten_row (row : List (String × β)) : List (String × β) :=
  row.foldl (fun cleaned kv => dinsertBy (fun a b => a == b) cleaned (normKey kv.1) kv.2) []

/-! ## Type mapper (`type_mapping.py`) -/
/-- A JSON-Schema fragment as produced by `POWERBI_TYPE_MAP`. -/
structure SchemaFragment where
  type : List String
  format : Option String
  deriving DecidableEq, Repr

def POWERBI_TYPE_MAP : List (String × SchemaFragment) :=
  [ ("String", ⟨["string", "null"], none⟩)
  , ("Int64", ⟨["number", "null"], none⟩)
  , ("Double", ⟨["number", "null"], none⟩)
  , ("Decimal", ⟨["number", "null"], none⟩)
  , ("Boolean", ⟨["boolean", "null"], none⟩)
  , ("DateTime", ⟨["string", "null"], some "date-time"⟩) ]

def powerbi_type_to_jsonschema (powerbi_type : String) : SchemaFragment :=
  (lookupBy (fun a b => a == b) POWERBI_TYPE_MAP powerbi_type).getD ⟨["string", "null"], none⟩

/-! ## TMDL parser (`tmdl_parser.py`) -/
/-- Python `str.strip()` whitespace predicate (space, tab, newline, carriage
return, vertical tab, form feed). -/
def pyIsSpace (c : Char) : Bool :=
  c = ' ' || c = '\t' || c = '\n' || c = '\r' || c = Char.ofNat 11 || c = Char.ofNat 12

/-- Python `str.strip()`: remove leading and trailing whitespace. -/
def pyStrip (s : String) : String :=
  String.mk (((s.data.dropWhile pyIsSpace).reverse.dropWhile pyIsSpace).reverse)

def TMDL_TYPE_MAP : List (String × String) :=
  [ ("string", "String"), ("int64", "Int64"), ("double", "Double")
  , ("decimal", "Decimal"), ("boolean", "Boolean"), ("datetime", "DateTime")
  , ("binary", "String") ]

/-- `_tmdl_type_to_powerbi_type`: case-insensitive lookup defaulting to
String. -/
def tmdl_type_to_powerbi_type (tmdl_type : String) : String :=
  (lookupBy (fun a b => a == b) TMDL_TYPE_MAP (String.mk (tmdl_type.data.map Char.toLower))).getD "String"

/-- Python `.replace("''", "'")`: left-to-right, non-overlapping
replacement of doubled single quotes by one quote. -/
def unescapeQuotes : List Char → List Char
  | [] => []
  | [c] => [c]
  | c :: c2 :: rest =>
      if c = sqc && c2 = sqc then sqc :: unescapeQuotes rest
      else c :: unescapeQuotes (c2 :: rest)

/-- `_unquote_tmdl_name`: strip surrounding single quotes (Python
`name[1:-1]`) and unescape doubled quotes. -/
def unquote_tmdl_name (name : String) : String :=
  let name := pyStrip name
  if pyStartsWith name sq && pyEndsWith name sq then
    String.mk (unescapeQuotes ((name.data.drop 1).dropLast))
  else name

/-- Portion of `s` before the first `=` (Python `s.split("=")[0]`). -/
def beforeFirstEq (s : String) : String := String.mk (s.data.takeWhile (· ≠ '='))

/-- Portion of `s` after the first `:` (Python `s.split(":", 1)[1]`, which
the source only evaluates on strings known to contain a colon). -/
def afterFirstColon (s : String) : String :=
  String.mk ((s.data.dropWhile (· ≠ ':')).tail)

structure TmdlColumn where
  name : String
  dataType : String
  deriving DecidableEq, Repr

structure TableDescriptor where
  name : String
  columns : List TmdlColumn
  isHidden : Bool
  deriving DecidableEq, Repr

/-- The scan state of `parse_tmdl_table`, one field per Python local. -/
structure PState where
  table_name : Option String
  table_hidden : Bool
  columns : List TmdlColumn
  in_column : Bool
  col_name : Option String
  col_type : String
  col_hidden : Bool
  deriving Repr

def initState : PState := ⟨none, false, [], false, none, "String", false⟩

/-- Python truthiness of the `col_name` local (`None` and `""` are falsy). -/
def colNameTruthy : Option String → Bool
  | some n => !n.isEmpty
  | none => false

/-- `_flush_column`: commit the pending column iff inside a column block
with a truthy name and not hidden, then reset the accumulator. -/
def flush_column (st : PState) : PState :=
  { st with
    columns := st.columns ++
      (if st.in_column && colNameTruthy st.col_name && !st.col_hidden then
        [⟨st.col_name.getD "", st.col_type⟩] else []),
    in_column := false, col_name := none, col_type := "String",
    col_hidden := false }

def childPrefixes : List String :=
  ["measure ", "partition ", "hierarchy ", "annotation ", "calculationGroup"]

def isChildStart (s : String) : Bool := childPrefixes.any (fun p => pyStartsWith s p)

/-- One iteration of the line loop of `parse_tmdl_table`, acting on the
already-stripped line. -/
def procStripped (st : PState) (stripped : String) : PState :=
  if (stripped == "") || pyStartsWith stripped "///" then st
  else if pyStartsWith stripped "table " then
    { st with table_name := some (unquote_tmdl_name (pyDrop stripped 6)) }
  else if pyStartsWith stripped "column " then
    let st := flush_column st
    { st with
      in_column := true,
      col_name := some (unquote_tmdl_name (beforeFirstEq (pyStrip (pyDrop stripped 7)))),
      col_type := "String",
      col_hidden := false }
  else if isChildStart stripped then
    flush_column st
  else if st.in_column then
    if pyStartsWith stripped "dataType:" then
      { st with col_type := tmdl_type_to_powerbi_type (pyStrip (afterFirstColon stripped)) }
    else if stripped == "isHidden" then
      { st with col_hidden := true }
    else st
  else if st.table_name.isSome && (stripped == "isHidden") then
    { st with table_hidden := true }
  else st

def parse_tmdl_table (tmdl_text : String) : Option TableDescriptor :=
  let st := (pySplitNl tmdl_text).foldl
    (fun st line => procStripped st (pyStrip line)) initState
  let st := flush_column st
  match st.table_name with
  | none => none
  | some n => some ⟨n, st.columns, st.table_hidden⟩

/-! ### Spec-side description of the column output

Modelled on the specification's words: a two-state accumulator (root /
in-column) over the stripped lines; a `column` line starts a block, the
next column or other-child line (or end of input) flushes it, and a block
is committed iff its name is non-empty and it is not marked hidden. -/
structure ColAcc where
  name : String
  dataType : String
  hidden : Bool
  deriving DecidableEq, Repr

def isColumnStart (s : String) : Bool := pyStartsWith s "column "

/-- The accumulator a `column` declaration line opens (name is the
quote-stripped portion before any `=`, type defaults to String). -/
def startColAcc (l : String) : ColAcc :=
  ⟨unquote_tmdl_name (beforeFirstEq (pyStrip (pyDrop l 7))), "String", false⟩

/-- Property lines inside a column block: `dataType:` sets the type via the
type map, a bare `isHidden` marks the block hidden, all else is inert. -/
def applyColProp (acc : ColAcc) (l : String) : ColAcc :=
  if pyStartsWith l "dataType:" then
    { acc with dataType := tmdl_type_to_powerbi_type (pyStrip (afterFirstColon l)) }
  else if l == "isHidden" then { acc with hidden := true }
  else acc

/-- Commit rule: a block surfaces exactly one column iff its name is
non-empty and it is not hidden. -/
def commitColAcc (acc : ColAcc) : List TmdlColumn :=
  if !acc.name.isEmpty && !acc.hidden then [⟨acc.name, acc.dataType⟩] else []

/-- Spec-side column extraction: the two-state machine over stripped
lines. -/
def specColumnsGo : Option ColAcc → List String → List TmdlColumn
  | pending, [] => (pending.map commitColAcc).getD []
  | pending, l :: ls =>
      if isColumnStart l then
        (pending.map commitColAcc).getD [] ++ specColumnsGo (some (startColAcc l)) ls
      else if isChildStart l then
        (pending.map commitColAcc).getD [] ++ specColumnsGo none ls
      else
        match pending with
        | some acc => specColumnsGo (some (applyColProp acc l)) ls
        | none => specColumnsGo none ls

/-- The non-hidden, non-empty-named column blocks of a TMDL text, in source
order. -/
def specColumns (text : String) : List TmdlColumn :=
  specColumnsGo none ((pySplitNl text).map pyStrip)

/-- The pending spec-side accumulator corresponding to a machine state. -/
def machinePending (st : PState) : Option ColAcc :=
  if st.in_column then some ⟨st.col_name.getD "", st.col_type, st.col_hidden⟩
  else none

/-! ## A model of Python/JSON values and exceptions

The visual query builder and the definition-to-tables extractor operate on
decoded JSON objects (Python dicts/lists/scalars).  `PVal` models these
values; exceptional control flow (`KeyError`, `TypeError`, ...) is modelled
in the `Except PyErr` monad. -/
inductive PyErr where
  | keyError
  | indexError
  | typeError
  | attributeError
  | valueError
  | jsonError
  | unicodeError
  | fuelError
  deriving DecidableEq, Repr

inductive PVal : Type where
  | null : PVal
  | bool : Bool → PVal
  | int : Int → PVal
  | num : Int → Int → PVal
  | str : String → PVal
  | arr : List PVal → PVal
  | obj : List (String × PVal) → PVal

mutual

/-- Structural (Python `==`) equality on values. -/
def pvBeq : PVal → PVal → Bool
  | .null, .null => true
  | .bool a, .bool b => a == b
  | .int a, .int b => a == b
  | .num a b, .num c d => a == c && b == d
  | .str a, .str b => a == b
  | .arr a, .arr b => pvBeqL a b
  | .obj a, .obj b => pvBeqO a b
  | _, _ => false

def pvBeqL : List PVal → List PVal → Bool
  | [], [] => true
  | a :: as, b :: bs => pvBeq a b && pvBeqL as bs
  | _, _ => false

def pvBeqO : List (String × PVal) → List (String × PVal) → Bool
  | [], [] => true
  | a :: as, b :: bs => a.1 == b.1 && pvBeq a.2 b.2 && pvBeqO as bs
  | _, _ => false

end

mutual

/-- Python `repr()`-style rendering (container escaping approximated; the
non-integral number rendering is a placeholder — no claim exercises it). -/
def pvRepr : PVal → String
  | .null => "None"
  | .bool b => if b then "True" else "False"
  | .int n => toString n
  | .num m e => toString m ++ "e" ++ toString e
  | .str s => sq ++ s ++ sq
  | .arr xs => "[" ++ joinSep ", " (pvReprL xs) ++ "]"
  | .obj kvs => "\x7b" ++ joinSep ", " (pvReprO kvs) ++ "\x7d"

def pvReprL : List PVal → List String
  | [] => []
  | x :: xs => pvRepr x :: pvReprL xs

def pvReprO : List (String × PVal) → List String
  | [] => []
  | kv :: kvs => (sq ++ kv.1 ++ sq ++ ": " ++ pvRepr kv.2) :: pvReprO kvs

end

/-- Python `str()` as used by f-string interpolation. -/
def pyStr : PVal → String
  | .str s => s
  | v => pvRepr v

/-- Python truthiness. -/
def pyTruthy : PVal → Bool
  | .null => false
  | .bool b => b
  | .int n => n != 0
  | .num m _ => m != 0
  | .str s => !s.data.isEmpty
  | .arr l => !l.isEmpty
  | .obj l => !l.isEmpty

/-- Python `v.get(k, d)` (raises `AttributeError` when `v` is not a dict). -/
def pvGet (v : PVal) (k : String) (d : PVal) : Except PyErr PVal :=
  match v with
  | .obj kvs => .ok ((lookupBy (fun a b => a == b) kvs k).getD d)
  | _ => .error .attributeError

/-- Python `v[k]` with a string key. -/
def pvIndexS (v : PVal) (k : String) : Except PyErr PVal :=
  match v with
  | .obj kvs =>
      match lookupBy (fun a b => a == b) kvs k with
      | some x => .ok x
      | none => .error .keyError
  | _ => .error .typeError

/-- Python `v[i]` with a non-negative integer index. -/
def pvIndexI (v : PVal) (i : Nat) : Except PyErr PVal :=
  match v with
  | .arr xs =>
      match xs.get? i with
      | some x => .ok x
      | none => .error .indexError
  | .str s =>
      match s.data.get? i with
      | some c => .ok (.str (String.mk [c]))
      | none => .error .indexError
  | .obj _ => .error .keyError
  | _ => .error .typeError

/-- Substring test on character lists (Python `needle in hay` on `str`). -/
def listInfix : List Char → List Char → Bool
  | n, [] => n.isEmpty
  | n, c :: rest => n.isPrefixOf (c :: rest) || listInfix n rest

/-- Python `k in v` for a string `k`. -/
def pvContains (k : String) (v : PVal) : Except PyErr Bool :=
  match v with
  | .obj kvs => .ok (lookupBy (fun a b => a == b) kvs k).isSome
  | .str s => .ok (listInfix k.data s.data)
  | .arr xs => .ok (xs.any (fun x => pvBeq x (.str k)))
  | _ => .error .typeError

/-- Python iteration (`for x in v`): lists yield elements, strings yield
one-character strings, dicts yield their keys. -/
def pvIter (v : PVal) : Except PyErr (List PVal) :=
  match v with
  | .arr xs => .ok xs
  | .str s => .ok (s.data.map (fun c => .str (String.mk [c])))
  | .obj kvs => .ok (kvs.map (fun kv => PVal.str kv.1))
  | _ => .error .typeError

/-! ### `base64.b64decode` and UTF-8 decoding -/
/-- Value of a base64 alphabet character. -/
def b64Val (c : Char) : Option Nat :=
  if 'A' ≤ c ∧ c ≤ 'Z' then some (c.toNat - 65)
  else if 'a' ≤ c ∧ c ≤ 'z' then some (c.toNat - 97 + 26)
  else if '0' ≤ c ∧ c ≤ '9' then some (c.toNat - 48 + 52)
  else if c = '+' then some 62
  else if c = '/' then some 63
  else none

/-- Decode 6-bit groups into bytes (a trailing group of one character is
invalid). -/
def b64DecodeGroups : List Nat → Except PyErr (List Nat)
  | [] => .ok []
  | a :: b :: c :: d :: rest =>
      (b64DecodeGroups rest).map (fun bs =>
        (a * 4 + b / 16) :: ((b % 16) * 16 + c / 4) :: ((c % 4) * 64 + d) :: bs)
  | [a, b, c] => .ok [a * 4 + b / 16, (b % 16) * 16 + c / 4]
  | [a, b] => .ok [a * 4 + b / 16]
  | [_] => .error .valueError

/-- `base64.b64decode` on a string argument: non-ASCII input raises; other
non-alphabet characters are discarded; the (padded) length must be a
multiple of four; data ends at the first `=`. -/
def b64decode (v : PVal) : Except PyErr (List Nat) :=
  match v with
  | .str s =>
      if s.data.any (fun c => 128 ≤ c.toNat) then .error .valueError
      else
        let cleaned := s.data.filter (fun c => (b64Val c).isSome || c = '=')
        if cleaned.length % 4 != 0 then .error .valueError
        else b64DecodeGroups ((cleaned.takeWhile (fun c => c ≠ '=')).filterMap b64Val)
  | _ => .error .typeError

/-- Continuation-byte test. -/
def utf8Cont (b : Nat) : Bool := 128 ≤ b && b < 192

/-- Strict UTF-8 decoding of a byte list (Python `bytes.decode("utf-8")`):
rejects continuation errors, overlong forms, surrogates and values beyond
U+10FFFF. -/
def utf8Decode : List Nat → Except PyErr (List Char)
  | [] => .ok []
  | b :: rest =>
      if b < 128 then (utf8Decode rest).map (fun cs => Char.ofNat b :: cs)
      else if 194 ≤ b && b ≤ 223 then
        match rest with
        | c1 :: rest2 =>
            if utf8Cont c1 then
              (utf8Decode rest2).map (fun cs =>
                Char.ofNat ((b - 192) * 64 + (c1 - 128)) :: cs)
            else .error .unicodeError
        | [] => .error .unicodeError
      else if 224 ≤ b && b ≤ 239 then
        match rest with
        | c1 :: c2 :: rest2 =>
            if (utf8Cont c1 && utf8Cont c2) &&
                (b != 224 || 160 ≤ c1) && (b != 237 || c1 < 160) then
              (utf8Decode rest2).map (fun cs =>
                Char.ofNat ((b - 224) * 4096 + (c1 - 128) * 64 + (c2 - 128)) :: cs)
            else .error .unicodeError
        | _ => .error .unicodeError
      else if 240 ≤ b && b ≤ 244 then
        match rest with
        | c1 :: c2 :: c3 :: rest2 =>
            if (utf8Cont c1 && utf8Cont c2 && utf8Cont c3) &&
                (b != 240 || 144 ≤ c1) && (b != 244 || c1 < 144) then
              (utf8Decode rest2).map (fun cs =>
                Char.ofNat ((b - 240) * 262144 + (c1 - 128) * 4096 +
                  (c2 - 128) * 64 + (c3 - 128)) :: cs)
            else .error .unicodeError
        | _ => .error .unicodeError
      else .error .unicodeError

/-- Decode bytes to a Lean string. -/
def utf8DecodeStr (bs : List Nat) : Except PyErr String :=
  (utf8Decode bs).map String.mk

/-! ### `json.loads`

A recursive-descent parser for the JSON subset Python's `json.loads`
accepts (modulo strictness corners it rejects that Python allows:
`NaN`/`Infinity` literals and lone surrogate escapes).  Recursion is fueled
(the fuel bound is generous; running out yields `fuelError`, which concrete
evaluations never reach). -/
def jIsWs (c : Char) : Bool := c = ' ' || c = '\t' || c = '\n' || c = '\r'

def jSkipWs (l : List Char) : List Char := l.dropWhile jIsWs

def hexVal (c : Char) : Option Nat :=
  if '0' ≤ c ∧ c ≤ '9' then some (c.toNat - 48)
  else if 'a' ≤ c ∧ c ≤ 'f' then some (c.toNat - 87)
  else if 'A' ≤ c ∧ c ≤ 'F' then some (c.toNat - 55)
  else none

def isDigit (c : Char) : Bool := '0' ≤ c && c ≤ '9'

/-- Longest digit prefix (as digit values) and the remainder. -/
def jTakeDigits : List Char → (List Nat × List Char)
  | [] => ([], [])
  | c :: rest =>
      if isDigit c then
        let pr := jTakeDigits rest
        ((c.toNat - 48) :: pr.1, pr.2)
      else ([], c :: rest)

def digitsToNat (ds : List Nat) : Nat := ds.foldl (fun a d => a * 10 + d) 0

/-- Assemble a parsed number: integer when there was no fraction and no
exponent marker, decimal mantissa/exponent otherwise. -/
def jFinishNumber (neg : Bool) (ids fds : List Nat) (e : Int) (isFloat : Bool)
    (l : List Char) : Except PyErr (PVal × List Char) :=
  let mant : Int := (if neg then -1 else 1) * (digitsToNat (ids ++ fds) : Int)
  if isFloat then .ok (.num mant (e - fds.length), l) else .ok (.int mant, l)

def jExponent (neg : Bool) (ids fds : List Nat) (l : List Char) :
    Except PyErr (PVal × List Char) :=
  let pr : Int × List Char :=
    match l with
    | '+' :: r => (1, r)
    | '-' :: r => (-1, r)
    | _ => (1, l)
  let ds := jTakeDigits pr.2
  if ds.1.isEmpty then .error .jsonError
  else jFinishNumber neg ids fds (pr.1 * (digitsToNat ds.1 : Int)) true ds.2

def jAfterInt (neg : Bool) (ids : List Nat) (l : List Char) :
    Except PyErr (PVal × List Char) :=
  match l with
  | '.' :: r =>
      let fr := jTakeDigits r
      if fr.1.isEmpty then .error .jsonError
      else
        match fr.2 with
        | 'e' :: r2 => jExponent neg ids fr.1 r2
        | 'E' :: r2 => jExponent neg ids fr.1 r2
        | _ => jFinishNumber neg ids fr.1 0 true fr.2
  | 'e' :: r => jExponent neg ids [] r
  | 'E' :: r => jExponent neg ids [] r
  | _ => jFinishNumber neg ids [] 0 false l

/-- Parse a JSON number starting at `l` (strict grammar: optional `-`,
no leading zeros, mandatory digits in fraction and exponent). -/
def jNumber (l : List Char) : Except PyErr (PVal × List Char) :=
  let pr : Bool × List Char :=
    match l with
    | '-' :: r => (true, r)
    | _ => (false, l)
  match pr.2 with
  | [] => .error .jsonError
  | c :: _ =>
      if !isDigit c then .error .jsonError
      else
        let ds := jTakeDigits pr.2
        if decide (1 < ds.1.length) && ds.1.headD 1 == 0 then .error .jsonError
        else jAfterInt pr.1 ds.1 ds.2

/-- Parse a JSON string body (after the opening quote); returns the content
and the remainder after the closing quote. -/
def jString : Nat → List Char → Except PyErr (List Char × List Char)
  | 0, _ => .error .fuelError
  | fuel + 1, l =>
      match l with
      | [] => .error .jsonError
      | c :: rest =>
          if c = Char.ofNat 34 then .ok ([], rest)
          else if c = '\\' then
            match rest with
            | [] => .error .jsonError
            | e :: rest2 =>
                if e = Char.ofNat 34 then
                  (jString fuel rest2).map (fun pr => (Char.ofNat 34 :: pr.1, pr.2))
                else if e = '\\' then
                  (jString fuel rest2).map (fun pr => ('\\' :: pr.1, pr.2))
                else if e = '/' then
                  (jString fuel rest2).map (fun pr => ('/' :: pr.1, pr.2))
                else if e = 'b' then
                  (jString fuel rest2).map (fun pr => (Char.ofNat 8 :: pr.1, pr.2))
                else if e = 'f' then
                  (jString fuel rest2).map (fun pr => (Char.ofNat 12 :: pr.1, pr.2))
                else if e = 'n' then
                  (jString fuel rest2).map (fun pr => ('\n' :: pr.1, pr.2))
                else if e = 'r' then
                  (jString fuel rest2).map (fun pr => ('\r' :: pr.1, pr.2))
                else if e = 't' then
                  (jString fuel rest2).map (fun pr => ('\t' :: pr.1, pr.2))
                else if e = 'u' then
                  match rest2 with
                  | h1 :: h2 :: h3 :: h4 :: rest3 =>
                      match hexVal h1, hexVal h2, hexVal h3, hexVal h4 with
                      | some a, some b, some c2, some d =>
                          let cp := a * 4096 + b * 256 + c2 * 16 + d
                          if 55296 ≤ cp ∧ cp ≤ 56319 then
                            match rest3 with
                            | '\\' :: 'u' :: g1 :: g2 :: g3 :: g4 :: rest4 =>
                                match hexVal g1, hexVal g2, hexVal g3, hexVal g4 with
                                | some a2, some b2, some c3, some d2 =>
                                    let lo := a2 * 4096 + b2 * 256 + c3 * 16 + d2
                                    if 56320 ≤ lo ∧ lo ≤ 57343 then
                                      (jString fuel rest4).map (fun pr =>
                                        (Char.ofNat (65536 + (cp - 55296) * 1024 +
                                          (lo - 56320)) :: pr.1, pr.2))
                                    else .error .jsonError
                                | _, _, _, _ => .error .jsonError
                            | _ => .error .jsonError
                          else if 56320 ≤ cp ∧ cp ≤ 57343 then .error .jsonError
                          else (jString fuel rest3).map (fun pr =>
                            (Char.ofNat cp :: pr.1, pr.2))
                      | _, _, _, _ => .error .jsonError
                  | _ => .error .jsonError
                else .error .jsonError
          else if c.toNat < 32 then .error .jsonError
          else (jString fuel rest).map (fun pr => (c :: pr.1, pr.2))

mutual

def jValue : Nat → List Char → Except PyErr (PVal × List Char)
  | 0, _ => .error .fuelError
  | fuel + 1, l =>
      match jSkipWs l with
      | [] => .error .jsonError
      | c :: rest =>
          if c = Char.ofNat 34 then
            (jString fuel rest).map (fun pr => (.str (String.mk pr.1), pr.2))
          else if c = Char.ofNat 123 then jObj fuel rest
          else if c = '[' then jArr fuel rest
          else if c = '-' || isDigit c then jNumber (c :: rest)
          else
            match c :: rest with
            | 't' :: 'r' :: 'u' :: 'e' :: r => .ok (.bool true, r)
            | 'f' :: 'a' :: 'l' :: 's' :: 'e' :: r => .ok (.bool false, r)
            | 'n' :: 'u' :: 'l' :: 'l' :: r => .ok (.null, r)
            | _ => .error .jsonError

def jArr : Nat → List Char → Except PyErr (PVal × List Char)
  | 0, _ => .error .fuelError
  | fuel + 1, l =>
      match jSkipWs l with
      | ']' :: r => .ok (.arr [], r)
      | l2 => jArrItems fuel l2 []

def jArrItems : Nat → List Char → List PVal → Except PyErr (PVal × List Char)
  | 0, _, _ => .error .fuelError
  | fuel + 1, l, acc =>
      match jValue fuel l with
      | .error e => .error e
      | .ok (v, r) =>
          match jSkipWs r with
          | ',' :: r2 => jArrItems fuel r2 (v :: acc)
          | ']' :: r2 => .ok (.arr (v :: acc).reverse, r2)
          | _ => .error .jsonError

def jObj : Nat → List Char → Except PyErr (PVal × List Char)
  | 0, _ => .error .fuelError
  | fuel + 1, l =>
      match jSkipWs l with
      | c :: rest =>
          if c = Char.ofNat 125 then .ok (.obj [], rest)
          else jObjItems fuel (c :: rest) []
      | [] => .error .jsonError

def jObjItems : Nat → List Char → List (String × PVal) →
    Except PyErr (PVal × List Char)
  | 0, _, _ => .error .fuelError
  | fuel + 1, l, acc =>
      match jSkipWs l with
      | c :: rest =>
          if c = Char.ofNat 34 then
            match jString fuel rest with
            | .error e => .error e
            | .ok (k, r) =>
                match jSkipWs r with
                | ':' :: r2 =>
                    match jValue fuel r2 with
                    | .error e => .error e
                    | .ok (v, r3) =>
                        let acc2 := dinsertBy (fun a b => a == b) acc (String.mk k) v
                        match jSkipWs r3 with
                        | ',' :: r4 => jObjItems fuel r4 acc2
                        | c2 :: r5 =>
                            if c2 = Char.ofNat 125 then .ok (.obj acc2, r5)
                            else .error .jsonError
                        | [] => .error .jsonError
                | _ => .error .jsonError
          else .error .jsonError
      | [] => .error .jsonError

end

/-- `json.loads`: accepts a string, parses one value, and requires only
whitespace after it.  Later duplicate object keys overwrite earlier ones. -/
def json_loads (v : PVal) : Except PyErr PVal :=
  match v with
  | .str s =>
      match jValue (2 * s.data.length + 8) s.data with
      | .error e => .error e
      | .ok (val, rest) =>
          if (jSkipWs rest).isEmpty then .ok val else .error .jsonError
  | _ => .error .typeError

/-! ## Visual query builder (`visual_query_builder.py`) -/
/-- The function-id table of `_prototype_to_dax` (dict with int keys). -/
def aggFuncs : List (PVal × String) :=
  [(.int 0, "SUM"), (.int 1, "AVG"), (.int 2, "COUNT"), (.int 3, "MIN"), (.int 4, "MAX")]

/-- The alias→entity dict comprehension over the From clauses (later
entries overwrite earlier ones). -/
def buildAliasMap (acc : List (PVal × PVal)) : List PVal → Except PyErr (List (PVal × PVal))
  | [] => .ok acc
  | f :: rest =>
      match pvIndexS f "Name" with
      | .error e => .error e
      | .ok nm =>
          match pvIndexS f "Entity" with
          | .error e => .error e
          | .ok ent => buildAliasMap (dinsertBy pvBeq acc nm ent) rest

/-- Chained string indexing `v[k1][k2]...`. -/
def pvIndexPath (v : PVal) : List String → Except PyErr PVal
  | [] => .ok v
  | k :: ks =>
      match pvIndexS v k with
      | .error e => .error e
      | .ok v2 => pvIndexPath v2 ks

/-- The per-Select-entry body of the `_prototype_to_dax` loop: the column
reference strings and the (name, expression) measure pairs this entry
appends. -/
def selContribution (am : List (PVal × PVal)) (sel : PVal) :
    Except PyErr (List String × List (String × String)) :=
  match pvContains "Column" sel with
  | .error e => .error e
  | .ok true =>
      match pvIndexPath sel ["Column", "Expression", "SourceRef", "Source"] with
      | .error e => .error e
      | .ok source =>
          let entity := (lookupBy pvBeq am source).getD source
          match pvIndexPath sel ["Column", "Property"] with
          | .error e => .error e
          | .ok prop => .ok ([sq ++ pyStr entity ++ sq ++ "[" ++ pyStr prop ++ "]"], [])
  | .ok false =>
      match pvContains "Measure" sel with
      | .error e => .error e
      | .ok true =>
          match pvIndexPath sel ["Measure", "Expression", "SourceRef", "Source"] with
          | .error e => .error e
          | .ok _source =>
              match pvIndexPath sel ["Measure", "Property"] with
              | .error e => .error e
              | .ok prop =>
                  .ok ([], [(dq ++ pyStr prop ++ dq, "[" ++ pyStr prop ++ "]")])
      | .ok false =>
          match pvContains "Aggregation" sel with
          | .error e => .error e
          | .ok true =>
              match pvIndexPath sel
                  ["Aggregation", "Expression", "Column", "Expression", "SourceRef", "Source"] with
              | .error e => .error e
              | .ok source =>
                  let entity := (lookupBy pvBeq am source).getD source
                  match pvIndexPath sel ["Aggregation", "Expression", "Column", "Property"] with
                  | .error e => .error e
                  | .ok prop =>
                      match pvIndexS sel "Aggregation" with
                      | .error e => .error e
                      | .ok aggv =>
                          match pvGet aggv "Function" (.int 0) with
                          | .error e => .error e
                          | .ok fid =>
                              let agg := (lookupBy pvBeq aggFuncs fid).getD "SUM"
                              .ok ([], [(dq ++ agg ++ " of " ++ pyStr prop ++ dq,
                                agg ++ "(" ++ sq ++ pyStr entity ++ sq ++ "[" ++
                                  pyStr prop ++ "]" ++ ")")])
          | .ok false => .ok ([], [])

/-- The Select loop of `_prototype_to_dax`: accumulate column references
and measure pairs in encounter order. -/
def classifyLoop (am : List (PVal × PVal)) : List PVal →
    Except PyErr (List String × List (String × String))
  | [] => .ok ([], [])
  | sel :: rest =>
      match selContribution am sel with
      | .error e => .error e
      | .ok pr =>
          match classifyLoop am rest with
          | .error e => .error e
          | .ok pr2 => .ok (pr.1 ++ pr2.1, pr.2 ++ pr2.2)

/-- `", ".join(f"{name}, {expr}" for name, expr in measures)`. -/
def renderPairs (ms : List (String × String)) : String :=
  joinSep ", " (ms.map (fun p => p.1 ++ ", " ++ p.2))

/-- The query-shape selection at the end of `_prototype_to_dax`, applied to
the classified column references and measure pairs. -/
def daxFromClassified (visual_type : PVal) (cm : List String × List (String × String)) :
    Option String :=
  if pvBeq visual_type (.str "card") || (cm.1.isEmpty && !cm.2.isEmpty) then
    let mp := renderPairs cm.2
    if mp.data.isEmpty then none else some ("EVALUATE ROW(" ++ mp ++ ")")
  else
    let cr := joinSep ", " cm.1
    let mp := renderPairs cm.2
    if !cr.data.isEmpty && !mp.data.isEmpty then
      some ("EVALUATE SUMMARIZECOLUMNS(" ++ cr ++ ", " ++ mp ++ ")")
    else if !cr.data.isEmpty then some ("EVALUATE DISTINCT(" ++ cr ++ ")")
    else none

/-- `_prototype_to_dax`. -/
def prototype_to_dax (proto : PVal) (visual_type : PVal) : Except PyErr (Option String) :=
  match pvGet proto "From" (.arr []) with
  | .error e => .error e
  | .ok fromv =>
      match pvGet proto "Select" (.arr []) with
      | .error e => .error e
      | .ok selv =>
          if !pyTruthy fromv || !pyTruthy selv then .ok none
          else
            match pvIter fromv with
            | .error e => .error e
            | .ok froms =>
                match buildAliasMap [] froms with
                | .error e => .error e
                | .ok am =>
                    match pvIter selv with
                    | .error e => .error e
                    | .ok sels =>
                        match classifyLoop am sels with
                        | .error e => .error e
                        | .ok cm => .ok (daxFromClassified visual_type cm)

/-- An inferred output column (`{"name": ..., "dataType": ...}`). -/
structure ColInfo where
  name : PVal
  dataType : String

/-- The per-Select-entry body of the `_infer_columns_from_proto` loop. -/
def inferContribution (sel : PVal) : Except PyErr (List ColInfo) :=
  match pvContains "Column" sel with
  | .error e => .error e
  | .ok true =>
      match pvIndexPath sel ["Column", "Property"] with
      | .error e => .error e
      | .ok prop => .ok [⟨prop, "String"⟩]
  | .ok false =>
      match pvContains "Measure" sel with
      | .error e => .error e
      | .ok true =>
          match pvIndexPath sel ["Measure", "Property"] with
          | .error e => .error e
          | .ok prop => .ok [⟨prop, "Double"⟩]
      | .ok false =>
          match pvContains "Aggregation" sel with
          | .error e => .error e
          | .ok true =>
              match pvIndexPath sel ["Aggregation", "Expression", "Column", "Property"] with
              | .error e => .error e
              | .ok prop =>
                  match pvIndexS sel "Aggregation" with
                  | .error e => .error e
                  | .ok aggv =>
                      match pvGet aggv "Function" (.int 0) with
                      | .error e => .error e
                      | .ok fid =>
                          let agg := (lookupBy pvBeq aggFuncs fid).getD "SUM"
                          .ok [⟨.str (agg ++ " of " ++ pyStr prop), "Double"⟩]
          | .ok false => .ok []

def inferLoop : List PVal → Except PyErr (List ColInfo)
  | [] => .ok []
  | sel :: rest =>
      match inferContribution sel with
      | .error e => .error e
      | .ok cs =>
          match inferLoop rest with
          | .error e => .error e
          | .ok cs2 => .ok (cs ++ cs2)

/-- `_infer_columns_from_proto` (the alias map is built but unused, exactly
as in the source). -/
def infer_columns_from_proto (proto : PVal) : Except PyErr (List ColInfo) :=
  match pvGet proto "From" (.arr []) with
  | .error e => .error e
  | .ok fromv =>
      match pvIter fromv with
      | .error e => .error e
      | .ok froms =>
          match buildAliasMap [] froms with
          | .error e => .error e
          | .ok _am =>
              match pvGet proto "Select" (.arr []) with
              | .error e => .error e
              | .ok selv =>
                  match pvIter selv with
                  | .error e => .error e
                  | .ok sels => inferLoop sels

/-- Python `s.strip("'")`: remove all leading and trailing single quotes. -/
def stripQuotes (s : String) : String :=
  String.mk (((s.data.dropWhile (fun c => c = sqc)).reverse.dropWhile
    (fun c => c = sqc)).reverse)

/-- `_extract_title`: follow the nested title path; `KeyError`,
`IndexError` and `TypeError` degrade to the empty string, but a non-string
`Value` raises `AttributeError` at `.strip` (not in the caught tuple). -/
def extract_title (single_visual : PVal) : Except PyErr PVal :=
  let chain : Except PyErr PVal :=
    match pvIndexS single_visual "objects" with
    | .error e => .error e
    | .ok v1 =>
        match pvIndexS v1 "title" with
        | .error e => .error e
        | .ok v2 =>
            match pvIndexI v2 0 with
            | .error e => .error e
            | .ok v3 =>
                match pvIndexS v3 "properties" with
                | .error e => .error e
                | .ok v4 => pvIndexPath v4 ["text", "expr", "Literal", "Value"]
  match chain with
  | .ok v =>
      match v with
      | .str s => .ok (.str (stripQuotes s))
      | _ => .error .attributeError
  | .error e =>
      if e = .keyError || e = .indexError || e = .typeError then .ok (.str "")
      else .error e

structure VisualDescriptor where
  name : PVal
  title : PVal
  visual_type : PVal
  page : PVal
  dax_query : String
  columns : List ColInfo

def excludedVisualTypes : List PVal :=
  [.str "slicer", .str "textbox", .str "shape", .str "image", .str "actionButton"]

/-- The tail of the visual-container loop body from the excluded-type check
onward: skip excluded types, build the DAX query (skip when absent or
empty), infer the columns, and assemble the descriptor. -/
def protoDescriptor (visual_name title visual_type page_name : PVal) (proto : PVal) :
    Except PyErr (Option VisualDescriptor) :=
  if excludedVisualTypes.any (fun t => pvBeq visual_type t) then .ok none
  else
    match prototype_to_dax proto visual_type with
    | .error e => .error e
    | .ok none => .ok none
    | .ok (some s) =>
        if s.data.isEmpty then .ok none
        else
          match infer_columns_from_proto proto with
          | .error e => .error e
          | .ok cols => .ok (some ⟨visual_name, title, visual_type, page_name, s, cols⟩)

/-- The middle of the loop body: read the visual type, name, title and
prototype query off a truthy `singleVisual`. -/
def svDescriptor (page_name : PVal) (config sv : PVal) :
    Except PyErr (Option VisualDescriptor) :=
  match pvGet sv "visualType" (.str "unknown") with
  | .error e => .error e
  | .ok visual_type =>
      match pvGet config "name" (.str "unnamed") with
      | .error e => .error e
      | .ok visual_name =>
          match extract_title sv with
          | .error e => .error e
          | .ok title0 =>
              let title := if pyTruthy title0 then title0 else visual_name
              match pvGet sv "prototypeQuery" (.obj []) with
              | .error e => .error e
              | .ok proto => protoDescriptor visual_name title visual_type page_name proto

/-- The body of the visual-container loop of
`visuals_from_report_definition`; `none` models `continue`. -/
def processContainer (page_name : PVal) (vc : PVal) :
    Except PyErr (Option VisualDescriptor) :=
  match pvGet vc "config" (.str "\x7b\x7d") with
  | .error e => .error e
  | .ok configRaw =>
      match json_loads configRaw with
      | .error e => .error e
      | .ok config =>
          match pvGet config "singleVisual" (.obj []) with
          | .error e => .error e
          | .ok sv =>
              if !pyTruthy sv then .ok none
              else svDescriptor page_name config sv

def processVCs (page : PVal) : List PVal → Except PyErr (List VisualDescriptor)
  | [] => .ok []
  | vc :: rest =>
      match processContainer page vc with
      | .error e => .error e
      | .ok none => processVCs page rest
      | .ok (some d) => (processVCs page rest).map (fun ds => d :: ds)

def processSection (sec : PVal) : Except PyErr (List VisualDescriptor) :=
  match pvGet sec "displayName" (.str "Page") with
  | .error e => .error e
  | .ok page =>
      match pvGet sec "visualContainers" (.arr []) with
      | .error e => .error e
      | .ok vcs =>
          match pvIter vcs with
          | .error e => .error e
          | .ok vcl => processVCs page vcl

def processSections : List PVal → Except PyErr (List VisualDescriptor)
  | [] => .ok []
  | s :: rest =>
      match processSection s with
      | .error e => .error e
      | .ok ds =>
          match processSections rest with
          | .error e => .error e
          | .ok ds2 => .ok (ds ++ ds2)

/-- The `report.json` search loop (first matching part wins; `break`). -/
def findReportJson : List PVal → Except PyErr (Option PVal)
  | [] => .ok none
  | p :: rest =>
      match pvGet p "path" .null with
      | .error e => .error e
      | .ok pathv =>
          if pvBeq pathv (.str "report.json") then
            match pvIndexS p "payload" with
            | .error e => .error e
            | .ok payload =>
                match b64decode payload with
                | .error e => .error e
                | .ok bytes =>
                    match utf8DecodeStr bytes with
                    | .error e => .error e
                    | .ok text => (json_loads (.str text)).map some
          else findReportJson rest

/-- `visuals_from_report_definition`. -/
def visuals_from_report_definition (definition : PVal) :
    Except PyErr (List VisualDescriptor) :=
  match pvGet definition "parts" (.arr []) with
  | .error e => .error e
  | .ok partsv =>
      match pvIter partsv with
      | .error e => .error e
      | .ok parts =>
          match findReportJson parts with
          | .error e => .error e
          | .ok rj =>
              match rj with
              | none => .ok []
              | some report_json =>
                  if !pyTruthy report_json then .ok []
                  else
                    match pvGet report_json "sections" (.arr []) with
                    | .error e => .error e
                    | .ok sectionsv =>
                        match pvIter sectionsv with
                        | .error e => .error e
                        | .ok sections => processSections sections

/-! ## Definition-to-tables extractor (`tables_from_definition`) -/
structure RestTable where
  name : String
  columns : List TmdlColumn
  deriving DecidableEq, Repr

/-- The body of the parts loop of `tables_from_definition`; `none` models
`continue` (path mismatch, unparseable text, hidden table). -/
def tablePartEntry (part : PVal) : Except PyErr (Option RestTable) :=
  match pvGet part "path" (.str "") with
  | .error e => .error e
  | .ok pathv =>
      match pathv with
      | .str path =>
          if pyStartsWith path "definition/tables/" && pyEndsWith path ".tmdl" then
            match pvIndexS part "payload" with
            | .error e => .error e
            | .ok payload =>
                match b64decode payload with
                | .error e => .error e
                | .ok bytes =>
                    match utf8DecodeStr bytes with
                    | .error e => .error e
                    | .ok text =>
                        match parse_tmdl_table text with
                        | some t => .ok (if t.isHidden then none else some ⟨t.name, t.columns⟩)
                        | none => .ok none
          else .ok none
      | _ => .error .attributeError

def tablesLoop : List PVal → Except PyErr (List RestTable)
  | [] => .ok []
  | p :: rest =>
      match tablePartEntry p with
      | .error e => .error e
      | .ok none => tablesLoop rest
      | .ok (some t) => (tablesLoop rest).map (fun ts => t :: ts)

/-- `tables_from_definition`. -/
def tables_from_definition (definition : PVal) : Except PyErr (List RestTable) :=
  match pvGet definition "parts" (.arr []) with
  | .error e => .error e
  | .ok partsv =>
      match pvIter partsv with
      | .error e => .error e
      | .ok parts => tablesLoop parts

/-! ## Structured prototype queries

For the claims about well-formed prototype queries, From clauses and
Select clauses are quantified in structured form and encoded into the
value model; the spec-side classification and shape selection are stated
over the structured form. -/
/-- A well-formed Select clause: a plain column reference, a measure
reference, or an inline aggregation with a function id. -/
inductive SelClause where
  | col (als prop : String)
  | meas (als prop : String)
  | agg (als prop : String) (fid : Int)

def encodeFromEntry (f : String × String) : PVal :=
  .obj [("Name", .str f.1), ("Entity", .str f.2)]

def encodeSel : SelClause → PVal
  | .col a p => .obj [("Column", .obj
      [("Expression", .obj [("SourceRef", .obj [("Source", .str a)])]),
       ("Property", .str p)])]
  | .meas a p => .obj [("Measure", .obj
      [("Expression", .obj [("SourceRef", .obj [("Source", .str a)])]),
       ("Property", .str p)])]
  | .agg a p fid => .obj [("Aggregation", .obj
      [("Expression", .obj [("Column", .obj
          [("Expression", .obj [("SourceRef", .obj [("Source", .str a)])]),
           ("Property", .str p)])]),
       ("Function", .int fid)])]

def encodeProto (fs : List (String × String)) (sels : List SelClause) : PVal :=
  .obj [("From", .arr (fs.map encodeFromEntry)), ("Select", .arr (sels.map encodeSel))]

/-- Alias→entity map of the From clauses (later entries overwrite). -/
def aliasAssoc (fs : List (String × String)) : List (String × String) :=
  fs.foldl (fun m p => dinsertBy (fun a b => a == b) m p.1 p.2) []

/-- Alias resolution per the spec: unresolved aliases pass through. -/
def resolveEntity (fs : List (String × String)) (a : String) : String :=
  (lookupBy (fun a b => a == b) (aliasAssoc fs) a).getD a

/-- Function ids 0–4 denote SUM/AVG/COUNT/MIN/MAX, default SUM. -/
def aggName (fid : Int) : String :=
  if fid = 0 then "SUM"
  else if fid = 1 then "AVG"
  else if fid = 2 then "COUNT"
  else if fid = 3 then "MIN"
  else if fid = 4 then "MAX"
  else "SUM"

/-- Modelled from the spec: classify the Select clauses into rendered
column references and (name, expression) measure pairs, in Select order. -/
def specClassify (fs : List (String × String)) : List SelClause →
    List String × List (String × String)
  | [] => ([], [])
  | s :: rest =>
      let pr := specClassify fs rest
      match s with
      | .col a p => ((sq ++ resolveEntity fs a ++ sq ++ "[" ++ p ++ "]") :: pr.1, pr.2)
      | .meas _ p => (pr.1, (dq ++ p ++ dq, "[" ++ p ++ "]") :: pr.2)
      | .agg a p fid =>
          (pr.1, (dq ++ aggName fid ++ " of " ++ p ++ dq,
            aggName fid ++ "(" ++ sq ++ resolveEntity fs a ++ sq ++ "[" ++ p ++ "]" ++ ")")
            :: pr.2)

/-- Modelled from the spec: the query-shape choice of claim C4 — card or
measure-only yields a ROW query (absent when there are no pairs), mixed
yields SUMMARIZECOLUMNS, column-only yields DISTINCT, otherwise absent. -/
def specDax (vt : String) (cm : List String × List (String × String)) : Option String :=
  if vt = "card" ∨ (cm.1 = [] ∧ cm.2 ≠ []) then
    if cm.2 = [] then none
    else some ("EVALUATE ROW(" ++ renderPairs cm.2 ++ ")")
  else if cm.1 ≠ [] ∧ cm.2 ≠ [] then
    some ("EVALUATE SUMMARIZECOLUMNS(" ++ joinSep ", " cm.1 ++ ", " ++ renderPairs cm.2 ++ ")")
  else if cm.1 ≠ [] then some ("EVALUATE DISTINCT(" ++ joinSep ", " cm.1 ++ ")")
  else none

/-- String pairs as value pairs (an encoded alias map). -/
def strPairs (m : List (String × String)) : List (PVal × PVal) :=
  m.map (fun p => (PVal.str p.1, PVal.str p.2))

/-! ### The output invariant of the visuals extractor -/
/-- The invariant claimed of every emitted visual descriptor: a non-empty
DAX query and a visual type outside the excluded set. -/
def visOk (d : VisualDescriptor) : Prop :=
  d.dax_query.data ≠ [] ∧
  excludedVisualTypes.any (fun x => pvBeq d.visual_type x) = false

/-- A Fabric getDefinition envelope holding one report.json part: one page
"P" with one barChart visual "v1" over From=[(t, TableA)] and
Select=[Column(t, Col1), Measure(t, M1)] (base64-encoded, quotes escaped
inside the inner config string). -/
def sampleReportDef : PVal :=
  .obj [("parts", .arr [.obj [("path", .str "report.json"),
    ("payload", .str "eyJzZWN0aW9ucyI6W3siZGlzcGxheU5hbWUiOiJQIiwidmlzdWFsQ29udGFpbmVycyI6W3siY29uZmlnIjoie1wibmFtZVwiOlwidjFcIixcInNpbmdsZVZpc3VhbFwiOntcInZpc3VhbFR5cGVcIjpcImJhckNoYXJ0XCIsXCJwcm90b3R5cGVRdWVyeVwiOntcIkZyb21cIjpbe1wiTmFtZVwiOlwidFwiLFwiRW50aXR5XCI6XCJUYWJsZUFcIn1dLFwiU2VsZWN0XCI6W3tcIkNvbHVtblwiOntcIkV4cHJlc3Npb25cIjp7XCJTb3VyY2VSZWZcIjp7XCJTb3VyY2VcIjpcInRcIn19LFwiUHJvcGVydHlcIjpcIkNvbDFcIn19LHtcIk1lYXN1cmVcIjp7XCJFeHByZXNzaW9uXCI6e1wiU291cmNlUmVmXCI6e1wiU291cmNlXCI6XCJ0XCJ9fSxcIlByb3BlcnR5XCI6XCJNMVwifX1dfX19In1dfV19")]])]

/-- The single visual descriptor the sample report yields. -/
def sampleVisual : VisualDescriptor :=
  ⟨.str "v1", .str "v1", .str "barChart", .str "P",
    "EVALUATE SUMMARIZECOLUMNS(" ++ sq ++ "TableA" ++ sq ++ "[Col1], " ++
      dq ++ "M1" ++ dq ++ ", [M1])",
    [⟨.str "Col1", "String"⟩, ⟨.str "M1", "Double"⟩]⟩

/-! ### Spec-side description of the definition-to-tables extractor -/
/-- Modelled from the spec: a part contributes a table iff its path matches
`definition/tables/*.tmdl`, its payload base64-decodes to UTF-8 text that
parses to a table, and that table is not hidden; the contribution is the
`\x7bname, columns\x7d` projection. -/
def specPartEntry (part : PVal) : Option RestTable :=
  match part with
  | .obj kvs =>
      match lookupBy (fun a b => a == b) kvs "path" with
      | some (.str path) =>
          if pyStartsWith path "definition/tables/" && pyEndsWith path ".tmdl" then
            match lookupBy (fun a b => a == b) kvs "payload" with
            | some payload =>
                match b64decode payload with
                | .ok bytes =>
                    match utf8DecodeStr bytes with
                    | .ok text =>
                        match parse_tmdl_table text with
                        | some t => if t.isHidden then none else some ⟨t.name, t.columns⟩
                        | none => none
                    | .error _ => none
                | .error _ => none
            | none => none
          else none
      | _ => none
  | _ => none

/-- Modelled from the spec: the tables of a definition envelope are the
per-part contributions of its parts list, in encounter order. -/
def specTables (defn : PVal) : List RestTable :=
  match defn with
  | .obj kvs =>
      match lookupBy (fun a b => a == b) kvs "parts" with
      | some (.arr parts) => parts.filterMap specPartEntry
      | _ => []
  | _ => []

/-- A definition envelope with three parts: a visible table
(`table Items` with one typed column), a table marked hidden at root level
(`table Secret` with a bare `isHidden` line, scenario 6), and a
non-matching `report.json` part. -/
def sampleTablesDef : PVal :=
  .obj [("parts", .arr [
    .obj [("path", .str "definition/tables/a.tmdl"),
      ("payload", .str "dGFibGUgSXRlbXMKCWNvbHVtbiBRdHkKCQlkYXRhVHlwZTogaW50NjQ=")],
    .obj [("path", .str "definition/tables/b.tmdl"),
      ("payload", .str "dGFibGUgU2VjcmV0Cglpc0hpZGRlbg==")],
    .obj [("path", .str "report.json"), ("payload", .str "ignored")]])]

/-! ## Theorems -/

/-! ## Lemmas about dict insertion and the flattener -/
theorem dinsertBy_fresh {β} (acc : List (String × β)) (k : String) (v : β)
    (h : ∀ kv ∈ acc, kv.1 ≠ k) :
    dinsertBy (fun a b => a == b) acc k v = acc ++ [(k, v)] := by
  induction acc with
  | nil => rfl
  | cons kv rest ih =>
      have hk : ¬((kv.1 == k) = true) := by
        simpa using h kv (List.mem_cons_self kv rest)
      simp only [dinsertBy]
      rw [if_neg hk, ih (fun kv' h' => h kv' (List.mem_cons_of_mem kv h'))]
      simp

theorem mem_keys_dinsertBy {β} (l : List (String × β)) (k : String) (v : β) (x : String)
    (h : x ∈ (dinsertBy (fun a b => a == b) l k v).map Prod.fst) :
    x ∈ l.map Prod.fst ∨ x = k := by
  induction l with
  | nil =>
      simp only [dinsertBy, List.map_cons, List.map_nil, List.mem_singleton] at h
      exact Or.inr h
  | cons kv rest ih =>
      by_cases hb : (kv.1 == k) = true
      · simp only [dinsertBy] at h
        rw [if_pos hb, List.map_cons, List.mem_cons] at h
        rcases h with h | h
        · exact Or.inr h
        · exact Or.inl (by rw [List.map_cons, List.mem_cons]; exact Or.inr h)
      · simp only [dinsertBy] at h
        rw [if_neg hb, List.map_cons, List.mem_cons] at h
        rcases h with h | h
        · exact Or.inl (by rw [List.map_cons, List.mem_cons]; exact Or.inl h)
        · rcases ih h with h' | h'
          · exact Or.inl (by rw [List.map_cons, List.mem_cons]; exact Or.inr h')
          · exact Or.inr h'

theorem keys_nodup_dinsertBy {β} (l : List (String × β)) (k : String) (v : β)
    (h : (l.map Prod.fst).Nodup) :
    ((dinsertBy (fun a b => a == b) l k v).map Prod.fst).Nodup := by
  induction l with
  | nil => simp [dinsertBy]
  | cons kv rest ih =>
      rw [List.map_cons, List.nodup_cons] at h
      by_cases hb : (kv.1 == k) = true
      · have hk : kv.1 = k := by simpa using hb
        simp only [dinsertBy]
        rw [if_pos hb, List.map_cons, List.nodup_cons]
        exact ⟨hk ▸ h.1, h.2⟩
      · have hk : kv.1 ≠ k := by simpa using hb
        simp only [dinsertBy]
        rw [if_neg hb, List.map_cons, List.nodup_cons]
        refine ⟨fun hmem => ?_, ih h.2⟩
        rcases mem_keys_dinsertBy rest k v kv.1 hmem with h' | h'
        · exact h.1 h'
        · exact hk h'

/-- The accumulator form of `flatten_row`: when no two keys (accumulated or
pending) normalise to the same output key, the fold appends one renamed
entry per input entry. -/
theorem flatten_row_aux {β} (l : List (String × β)) : ∀ acc : List (String × β),
    (acc.map Prod.fst ++ l.map (fun kv => normKey kv.1)).Nodup →
    List.foldl (fun cleaned kv =>
        dinsertBy (fun a b => a == b) cleaned (normKey kv.1) kv.2) acc l =
      acc ++ l.map (fun kv => (normKey kv.1, kv.2)) := by
  induction l with
  | nil => intro acc _; simp
  | cons kv rest ih =>
      intro acc h
      rw [List.map_cons] at h
      have hfresh : ∀ kv' ∈ acc, kv'.1 ≠ normKey kv.1 := by
        intro kv' hmem heq
        have h1 : kv'.1 ∈ acc.map Prod.fst := List.mem_map_of_mem Prod.fst hmem
        have hdisj := (List.nodup_append.mp h).2.2
        exact hdisj h1 (by rw [heq]; exact List.mem_cons_self _ _)
      have h' : ((acc ++ [(normKey kv.1, kv.2)]).map Prod.fst ++
          rest.map (fun kv => normKey kv.1)).Nodup := by
        simp only [List.map_append, List.map_cons, List.map_nil]
        simpa [List.append_assoc] using h
      rw [List.foldl_cons, dinsertBy_fresh acc (normKey kv.1) kv.2 hfresh,
        ih (acc ++ [(normKey kv.1, kv.2)]) h']
      simp

theorem flatten_row_keys_nodup {β} (row : List (String × β)) :
    ((flatten_row row).map Prod.fst).Nodup := by
  suffices h : ∀ acc : List (String × β), (acc.map Prod.fst).Nodup →
      ((List.foldl (fun cleaned kv =>
          dinsertBy (fun a b => a == b) cleaned (normKey kv.1) kv.2) acc row).map
        Prod.fst).Nodup by
    exact h [] (by simp)
  induction row with
  | nil => intro acc hacc; simpa using hacc
  | cons kv rest ih =>
      intro acc hacc
      exact ih _ (keys_nodup_dinsertBy acc (normKey kv.1) kv.2 hacc)

/-- On a row whose keys are already fixed points of the normalisation and
pairwise distinct, `flatten_row` is the identity. -/
theorem flatten_row_fixed {β} (l : List (String × β))
    (hn : (l.map Prod.fst).Nodup) (hfix : ∀ kv ∈ l, normKey kv.1 = kv.1) :
    flatten_row l = l := by
  have hmap : l.map (fun kv => normKey kv.1) = l.map Prod.fst :=
    List.map_congr_left (fun kv hkv => hfix kv hkv)
  have := flatten_row_aux l [] (by simpa [hmap] using hn)
  rw [flatten_row, this]
  simp only [List.nil_append]
  calc l.map (fun kv => (normKey kv.1, kv.2))
      = l.map id := List.map_congr_left (fun kv hkv => by
        simp [hfix kv hkv])
    _ = l := List.map_id l

theorem lookupBy_mem {α β} (beq : α → α → Bool) (l : List (α × β)) (k : α) (v : β)
    (h : lookupBy beq l k = some v) : v ∈ l.map Prod.snd := by
  induction l with
  | nil => simp [lookupBy] at h
  | cons kv rest ih =>
      simp only [lookupBy] at h
      by_cases hb : beq kv.1 k = true
      · rw [if_pos hb] at h
        rw [List.map_cons, List.mem_cons]
        exact Or.inl (Option.some.inj h).symm
      · rw [if_neg hb] at h
        exact List.mem_cons_of_mem _ (ih h)

/-! ### Prefix disjointness facts -/
theorem isPrefixOf_head_ne {c d : Char} {cs ds s : List Char} (hne : c ≠ d)
    (h : List.isPrefixOf (c :: cs) s = true) :
    List.isPrefixOf (d :: ds) s = false := by
  cases s with
  | nil => simp [List.isPrefixOf] at h
  | cons x xs =>
      have hc : c = x := by
        simp only [List.isPrefixOf, Bool.and_eq_true, beq_iff_eq] at h
        exact h.1
      have hd : d ≠ x := fun h' => hne (by rw [hc, h'])
      simp [List.isPrefixOf, beq_eq_false_iff_ne.mpr hd]

theorem isPrefixOf_self (l : List Char) : l.isPrefixOf l = true := by
  induction l with
  | nil => rfl
  | cons c cs ih => simp [List.isPrefixOf, ih]

theorem pyStartsWith_ne {s : String} (p q : String) {c d : Char} {cs ds : List Char}
    (hp : p.data = c :: cs) (hq : q.data = d :: ds) (hne : c ≠ d)
    (h : pyStartsWith s p = true) : pyStartsWith s q = false := by
  rw [pyStartsWith, hq]
  rw [pyStartsWith, hp] at h
  exact isPrefixOf_head_ne hne h

theorem beq_lit_false_of_pyStartsWith {l : String} (p q : String) {c d : Char}
    {cs ds : List Char} (hp : p.data = c :: cs) (hq : q.data = d :: ds) (hne : c ≠ d)
    (h : pyStartsWith l p = true) : (l == q) = false := by
  apply beq_eq_false_iff_ne.mpr
  intro he
  rw [he] at h
  have hfalse := pyStartsWith_ne p q hp hq hne h
  rw [pyStartsWith, isPrefixOf_self] at hfalse
  exact Bool.true_eq_false.mp hfalse

theorem isChildStart_false_of_head {l : String} (p : String) {c : Char} {cs : List Char}
    (hp : p.data = c :: cs)
    (hm : c ≠ 'm') (hpp : c ≠ 'p') (hh : c ≠ 'h') (ha : c ≠ 'a') (hcg : c ≠ 'c')
    (h : pyStartsWith l p = true) : isChildStart l = false := by
  have h1 := pyStartsWith_ne p "measure " hp rfl hm h
  have h2 := pyStartsWith_ne p "partition " hp rfl hpp h
  have h3 := pyStartsWith_ne p "hierarchy " hp rfl hh h
  have h4 := pyStartsWith_ne p "annotation " hp rfl ha h
  have h5 := pyStartsWith_ne p "calculationGroup" hp rfl hcg h
  simp [isChildStart, childPrefixes, h1, h2, h3, h4, h5]

/-- The line facts needed to step the spec-side machine past a line that the
scan classifies as skippable or as a table declaration. -/
theorem inert_line_facts {l : String} (p : String) {c : Char} {cs : List Char}
    (hp : p.data = c :: cs)
    (hm : c ≠ 'm') (hpp : c ≠ 'p') (hh : c ≠ 'h') (ha : c ≠ 'a') (hcg : c ≠ 'c')
    (hd : c ≠ 'd') (hi : c ≠ 'i') (h : pyStartsWith l p = true) :
    isColumnStart l = false ∧ isChildStart l = false ∧
      (pyStartsWith l "dataType:") = false ∧ (l == "isHidden") = false := by
  refine ⟨?_, ?_, ?_, ?_⟩
  · exact pyStartsWith_ne p "column " hp rfl hcg h
  · exact isChildStart_false_of_head p hp hm hpp hh ha hcg h
  · exact pyStartsWith_ne p "dataType:" hp rfl hd h
  · exact beq_lit_false_of_pyStartsWith p "isHidden" hp rfl hi h

theorem applyColProp_inert {l : String} (acc : ColAcc)
    (hd : pyStartsWith l "dataType:" = false) (hi : (l == "isHidden") = false) :
    applyColProp acc l = acc := by
  simp [applyColProp, hd, hi]

/-! ### The scan computes the spec-side machine's columns -/
theorem specColumnsGo_nil (pending : Option ColAcc) :
    specColumnsGo pending [] = (pending.map commitColAcc).getD [] := rfl

theorem specColumnsGo_cons (pending : Option ColAcc) (l : String) (ls : List String) :
    specColumnsGo pending (l :: ls) =
      if isColumnStart l then
        (pending.map commitColAcc).getD [] ++ specColumnsGo (some (startColAcc l)) ls
      else if isChildStart l then
        (pending.map commitColAcc).getD [] ++ specColumnsGo none ls
      else
        match pending with
        | some acc => specColumnsGo (some (applyColProp acc l)) ls
        | none => specColumnsGo none ls := rfl

theorem flush_column_columns (st : PState) :
    (flush_column st).columns =
      st.columns ++ ((machinePending st).map commitColAcc).getD [] := by
  rw [flush_column, machinePending]
  by_cases hin : st.in_column
  · cases hcn : st.col_name with
    | none =>
        have hemp : ("" : String).isEmpty = true := rfl
        simp [hin, hcn, colNameTruthy, commitColAcc, hemp]
    | some n => simp [hin, hcn, colNameTruthy, commitColAcc]
  · simp [hin]

theorem specColumnsGo_inert (pending : Option ColAcc) (l : String) (ls : List String)
    (hcol : isColumnStart l = false) (hchild : isChildStart l = false)
    (hdt : pyStartsWith l "dataType:" = false) (hhid : (l == "isHidden") = false) :
    specColumnsGo pending (l :: ls) = specColumnsGo pending ls := by
  rw [specColumnsGo_cons, if_neg (by rw [hcol]; exact Bool.false_ne_true),
    if_neg (by rw [hchild]; exact Bool.false_ne_true)]
  cases pending with
  | none => rfl
  | some acc =>
      show specColumnsGo (some (applyColProp acc l)) ls = specColumnsGo (some acc) ls
      rw [applyColProp_inert acc hdt hhid]

theorem specColumnsGo_prop_some (acc : ColAcc) (l : String) (ls : List String)
    (hcol : isColumnStart l = false) (hchild : isChildStart l = false) :
    specColumnsGo (some acc) (l :: ls) = specColumnsGo (some (applyColProp acc l)) ls := by
  rw [specColumnsGo_cons, if_neg (by rw [hcol]; exact Bool.false_ne_true),
    if_neg (by rw [hchild]; exact Bool.false_ne_true)]

theorem specColumnsGo_prop_none (l : String) (ls : List String)
    (hcol : isColumnStart l = false) (hchild : isChildStart l = false) :
    specColumnsGo none (l :: ls) = specColumnsGo none ls := by
  rw [specColumnsGo_cons, if_neg (by rw [hcol]; exact Bool.false_ne_true),
    if_neg (by rw [hchild]; exact Bool.false_ne_true)]

theorem specColumnsGo_column (pending : Option ColAcc) (l : String) (ls : List String)
    (h : isColumnStart l = true) :
    specColumnsGo pending (l :: ls) =
      (pending.map commitColAcc).getD [] ++ specColumnsGo (some (startColAcc l)) ls := by
  rw [specColumnsGo_cons, if_pos h]

theorem specColumnsGo_child (pending : Option ColAcc) (l : String) (ls : List String)
    (hcol : isColumnStart l = false) (h : isChildStart l = true) :
    specColumnsGo pending (l :: ls) =
      (pending.map commitColAcc).getD [] ++ specColumnsGo none ls := by
  rw [specColumnsGo_cons, if_neg (by rw [hcol]; exact Bool.false_ne_true), if_pos h]

theorem machine_spec_columns (sls : List String) : ∀ st : PState,
    (flush_column (List.foldl procStripped st sls)).columns =
      st.columns ++ specColumnsGo (machinePending st) sls := by
  induction sls with
  | nil =>
      intro st
      rw [List.foldl_nil, flush_column_columns, specColumnsGo_nil]
  | cons l ls ih =>
      intro st
      rw [List.foldl_cons]
      by_cases h1 : ((l == "") || pyStartsWith l "///") = true
      · -- skippable line: blank or comment; inert on both sides
        have hfacts : isColumnStart l = false ∧ isChildStart l = false ∧
            (pyStartsWith l "dataType:") = false ∧ (l == "isHidden") = false := by
          rcases Bool.or_eq_true_iff.mp h1 with he | hc
          · have hl : l = "" := beq_iff_eq.mp he
            subst hl; decide
          · exact inert_line_facts "///" rfl (by decide) (by decide) (by decide)
              (by decide) (by decide) (by decide) (by decide) hc
        obtain ⟨hcol, hchild, hdt, hhid⟩ := hfacts
        have hstep : procStripped st l = st := by
          rw [procStripped, if_pos h1]
        rw [hstep, ih st, specColumnsGo_inert _ _ _ hcol hchild hdt hhid]
      · by_cases h2 : pyStartsWith l "table " = true
        · -- table declaration: changes only the table name
          obtain ⟨hcol, hchild, hdt, hhid⟩ := inert_line_facts "table " rfl
            (by decide) (by decide) (by decide) (by decide) (by decide)
            (by decide) (by decide) h2
          have hstep : procStripped st l =
              { st with table_name := some (unquote_tmdl_name (pyDrop l 6)) } := by
            rw [procStripped, if_neg h1, if_pos h2]
          rw [hstep, ih, specColumnsGo_inert _ _ _ hcol hchild hdt hhid]
          rfl
        · by_cases h3 : pyStartsWith l "column " = true
          · -- column declaration: flush, then open a fresh accumulator
            have hstep : procStripped st l =
                { flush_column st with
                  in_column := true,
                  col_name := some (unquote_tmdl_name (beforeFirstEq (pyStrip (pyDrop l 7)))),
                  col_type := "String",
                  col_hidden := false } := by
              rw [procStripped, if_neg h1, if_neg h2, if_pos h3]
            rw [hstep, ih, specColumnsGo_column _ _ _ h3]
            show (flush_column st).columns ++ specColumnsGo (some (startColAcc l)) ls =
              st.columns ++ (((machinePending st).map commitColAcc).getD [] ++
                specColumnsGo (some (startColAcc l)) ls)
            rw [flush_column_columns, List.append_assoc]
          · by_cases h4 : isChildStart l = true
            · -- other child object: flush, return to root state
              have hcol : isColumnStart l = false := Bool.eq_false_iff.mpr h3
              have hstep : procStripped st l = flush_column st := by
                rw [procStripped, if_neg h1, if_neg h2, if_neg h3, if_pos h4]
              rw [hstep, ih, specColumnsGo_child _ _ _ hcol h4]
              show (flush_column st).columns ++ specColumnsGo none ls =
                st.columns ++ (((machinePending st).map commitColAcc).getD [] ++
                  specColumnsGo none ls)
              rw [flush_column_columns, List.append_assoc]
            · -- property or unrecognised line
              have hcol : isColumnStart l = false := Bool.eq_false_iff.mpr h3
              have hchild : isChildStart l = false := Bool.eq_false_iff.mpr h4
              by_cases hin : st.in_column = true
              · have hpend : machinePending st =
                    some ⟨st.col_name.getD "", st.col_type, st.col_hidden⟩ := by
                  rw [machinePending, if_pos hin]
                rw [hpend, specColumnsGo_prop_some _ _ _ hcol hchild]
                by_cases hdt : pyStartsWith l "dataType:" = true
                · have hstep : procStripped st l =
                      { st with col_type := tmdl_type_to_powerbi_type (pyStrip (afterFirstColon l)) } := by
                    rw [procStripped, if_neg h1, if_neg h2, if_neg h3, if_neg h4,
                      if_pos hin, if_pos hdt]
                  have happ : applyColProp
                      ⟨st.col_name.getD "", st.col_type, st.col_hidden⟩ l =
                      ⟨st.col_name.getD "",
                        tmdl_type_to_powerbi_type (pyStrip (afterFirstColon l)),
                        st.col_hidden⟩ := by
                    rw [applyColProp, if_pos hdt]
                  have hpend2 : machinePending
                      { st with col_type := tmdl_type_to_powerbi_type (pyStrip (afterFirstColon l)) } =
                      some ⟨st.col_name.getD "",
                        tmdl_type_to_powerbi_type (pyStrip (afterFirstColon l)),
                        st.col_hidden⟩ := by
                    rw [machinePending, if_pos hin]
                  rw [hstep, ih, happ, hpend2]
                · by_cases hhid : (l == "isHidden") = true
                  · have hstep : procStripped st l = { st with col_hidden := true } := by
                      rw [procStripped, if_neg h1, if_neg h2, if_neg h3, if_neg h4,
                        if_pos hin, if_neg hdt, if_pos hhid]
                    have happ : applyColProp
                        ⟨st.col_name.getD "", st.col_type, st.col_hidden⟩ l =
                        ⟨st.col_name.getD "", st.col_type, true⟩ := by
                      rw [applyColProp, if_neg hdt, if_pos hhid]
                    have hpend2 : machinePending { st with col_hidden := true } =
                        some ⟨st.col_name.getD "", st.col_type, true⟩ := by
                      rw [machinePending, if_pos hin]
                    rw [hstep, ih, happ, hpend2]
                  · have hstep : procStripped st l = st := by
                      rw [procStripped, if_neg h1, if_neg h2, if_neg h3, if_neg h4,
                        if_pos hin, if_neg hdt, if_neg hhid]
                    have hdt2 : pyStartsWith l "dataType:" = false :=
                      Bool.eq_false_iff.mpr hdt
                    have hhid2 : (l == "isHidden") = false :=
                      Bool.eq_false_iff.mpr hhid
                    rw [hstep, ih, hpend, applyColProp_inert _ hdt2 hhid2]
              · have hpend : machinePending st = none := by
                  rw [machinePending, if_neg hin]
                rw [hpend, specColumnsGo_prop_none _ _ hcol hchild]
                by_cases hth : (st.table_name.isSome && (l == "isHidden")) = true
                · have hstep : procStripped st l = { st with table_hidden := true } := by
                    rw [procStripped, if_neg h1, if_neg h2, if_neg h3, if_neg h4,
                      if_neg hin, if_pos hth]
                  have hpend2 : machinePending { st with table_hidden := true } = none := by
                    rw [machinePending, if_neg hin]
                  rw [hstep, ih, hpend2]
                · have hstep : procStripped st l = st := by
                    rw [procStripped, if_neg h1, if_neg h2, if_neg h3, if_neg h4,
                      if_neg hin, if_neg hth]
                  rw [hstep, ih, hpend]

/-! ## Claims C1, C3, C9 -/
/-- Claim C1, counterexample: two distinct input keys that normalise to the
same output key are merged by `flatten_row` (last write wins), so the output
has fewer entries than the input — the claimed universal size preservation
fails. -/
theorem claim_C1_counterexample :
    flatten_row [("[T].[X]", (1 : Nat)), ("[X]", 2)] = [("X", 2)] ∧
    (flatten_row [("[T].[X]", (1 : Nat)), ("[X]", 2)]).length ≠
      ([("[T].[X]", (1 : Nat)), ("[X]", 2)] : List (String × Nat)).length :=
  ⟨rfl, by decide⟩

/-- Claim C1 (amended): provided no two input keys normalise to the same
output key, `flatten_row` transforms only keys — every value is carried
unchanged in order — and preserves the entry count; on a collision the code
instead merges entries with last-write-wins. -/
theorem claim_C1_amended {β} (row : List (String × β))
    (h : (row.map (fun kv => normKey kv.1)).Nodup) :
    flatten_row row = row.map (fun kv => (normKey kv.1, kv.2)) ∧
    (flatten_row row).length = row.length := by
  have heq := flatten_row_aux row [] (by simpa using h)
  rw [List.nil_append] at heq
  constructor
  · rw [flatten_row]; exact heq
  · rw [flatten_row, heq, List.length_map]

/-- Claim C1, witness: the amended theorem applied at a concrete
collision-free row. -/
theorem claim_C1_witness :
    ([("[T].[A]", (1 : Nat)), ("x[B]", 2)].map (fun kv => normKey kv.1)).Nodup ∧
    (flatten_row [("[T].[A]", (1 : Nat)), ("x[B]", 2)] =
        [("[T].[A]", (1 : Nat)), ("x[B]", 2)].map (fun kv => (normKey kv.1, kv.2)) ∧
      (flatten_row [("[T].[A]", (1 : Nat)), ("x[B]", 2)]).length =
        ([("[T].[A]", (1 : Nat)), ("x[B]", 2)] : List (String × Nat)).length) :=
  ⟨by decide, claim_C1_amended [("[T].[A]", (1 : Nat)), ("x[B]", 2)] (by decide)⟩

/-- Claim C3, counterexample: `flatten_row` is not idempotent — the key
`x[y[z]]` flattens to `y[z]`, which still matches the table-bracket pattern
and flattens again to `z` on a second pass. -/
theorem claim_C3_counterexample :
    flatten_row (flatten_row [("x[y[z]]", (1 : Nat))]) ≠
      flatten_row [("x[y[z]]", (1 : Nat))] := by decide

/-- Claim C3 (amended): `flatten_row` is idempotent on every row whose
flattened keys match none of the three bracket patterns (are fixed points of
the key normalisation); in general an output key may match a pattern again
and a second pass is then not a no-op. -/
theorem claim_C3_amended {β} (row : List (String × β))
    (h : ∀ kv ∈ flatten_row row, normKey kv.1 = kv.1) :
    flatten_row (flatten_row row) = flatten_row row :=
  flatten_row_fixed (flatten_row row) (flatten_row_keys_nodup row) h

/-- Claim C3, witness: the amended idempotence applied at a concrete row
whose flattened keys are pattern-free. -/
theorem claim_C3_witness :
    (∀ kv ∈ flatten_row [("A[B]", (1 : Nat))], normKey kv.1 = kv.1) ∧
    flatten_row (flatten_row [("A[B]", (1 : Nat))]) =
      flatten_row [("A[B]", (1 : Nat))] :=
  ⟨by decide, claim_C3_amended [("A[B]", (1 : Nat))] (by decide)⟩

/-- Claim C9: `powerbi_type_to_jsonschema` maps every type name — the six
canonical ones and any unrecognised token — to a schema fragment whose type
list contains "null"; no type is exempt from nullability. -/
theorem claim_C9_all_types_nullable (powerbi_type : String) :
    "null" ∈ (powerbi_type_to_jsonschema powerbi_type).type := by
  rw [powerbi_type_to_jsonschema]
  cases h : lookupBy (fun a b => a == b) POWERBI_TYPE_MAP powerbi_type with
  | none => simp
  | some v =>
      have hv := lookupBy_mem _ _ _ _ h
      simp only [POWERBI_TYPE_MAP, List.map_cons, List.map_nil, List.mem_cons,
        List.not_mem_nil, or_false] at hv
      simp only [Option.getD_some]
      rcases hv with rfl | rfl | rfl | rfl | rfl | rfl <;> decide

/-! ## Claims C6 and C8 -/
theorem flush_column_table_name (st : PState) :
    (flush_column st).table_name = st.table_name := rfl

/-- Claim C6: the columns returned by `parse_tmdl_table` are exactly the
column blocks of the text that have a non-empty name and are not marked
hidden, in source order: the spec-side two-state machine over the stripped
lines computes the same list. -/
theorem claim_C6_columns (text : String) (d : TableDescriptor)
    (h : parse_tmdl_table text = some d) :
    d.columns = specColumns text := by
  have key := machine_spec_columns ((pySplitNl text).map pyStrip) initState
  rw [List.foldl_map] at key
  simp only [parse_tmdl_table] at h
  split at h
  · exact absurd h (by simp)
  · rename_i n heq
    rw [Option.some.injEq] at h
    subst h
    exact key

/-- Claim C6, witness: a text with two named visible columns and one hidden
column; the theorem applied there, together with the concrete outcome. -/
theorem claim_C6_witness :
    parse_tmdl_table "table Items\n\n    column Label\n        dataType: string\n\n    column Secret\n        isHidden\n\n    column Value\n        dataType: double\n" =
      some ⟨"Items", [⟨"Label", "String"⟩, ⟨"Value", "Double"⟩], false⟩ ∧
    (⟨"Items", [⟨"Label", "String"⟩, ⟨"Value", "Double"⟩], false⟩ : TableDescriptor).columns =
      specColumns "table Items\n\n    column Label\n        dataType: string\n\n    column Secret\n        isHidden\n\n    column Value\n        dataType: double\n" :=
  ⟨rfl, claim_C6_columns _ _ rfl⟩

theorem procStripped_table_name (st : PState) (l : String) :
    (procStripped st l).table_name =
      if pyStartsWith l "table " then some (unquote_tmdl_name (pyDrop l 6))
      else st.table_name := by
  have hcomm : ((l == "") || pyStartsWith l "///") = true →
      pyStartsWith l "table " = false := by
    intro h1
    rcases Bool.or_eq_true_iff.mp h1 with he | hc
    · have hl : l = "" := beq_iff_eq.mp he
      subst hl; decide
    · exact pyStartsWith_ne "///" "table " rfl rfl (by decide) hc
  rw [procStripped]
  by_cases h1 : ((l == "") || pyStartsWith l "///") = true
  · rw [if_pos h1, if_neg (by rw [hcomm h1]; exact Bool.false_ne_true)]
  · rw [if_neg h1]
    by_cases h2 : pyStartsWith l "table " = true
    · rw [if_pos h2, if_pos h2]
    · rw [if_neg h2, if_neg h2]
      by_cases h3 : pyStartsWith l "column " = true
      · rw [if_pos h3]; rfl
      · rw [if_neg h3]
        by_cases h4 : isChildStart l = true
        · rw [if_pos h4]; rfl
        · rw [if_neg h4]
          by_cases hin : st.in_column = true
          · rw [if_pos hin]
            by_cases hdt : pyStartsWith l "dataType:" = true
            · rw [if_pos hdt]
            · rw [if_neg hdt]
              by_cases hhid : (l == "isHidden") = true
              · rw [if_pos hhid]
              · rw [if_neg hhid]
          · rw [if_neg hin]
            by_cases hth : (st.table_name.isSome && (l == "isHidden")) = true
            · rw [if_pos hth]
            · rw [if_neg hth]

theorem getLast?_cons_eq (a : α) (l : List α) :
    (a :: l).getLast? =
      match l.getLast? with
      | some x => some x
      | none => some a := by
  induction l with
  | nil => rfl
  | cons b t _ =>
      rw [List.getLast?_cons_cons]
      cases h : (b :: t).getLast? with
      | none => exact absurd h (by simp)
      | some x => rfl

theorem foldl_table_name (sls : List String) : ∀ st : PState,
    (List.foldl procStripped st sls).table_name =
      match (sls.filter (fun l => pyStartsWith l "table ")).getLast? with
      | some tl => some (unquote_tmdl_name (pyDrop tl 6))
      | none => st.table_name := by
  induction sls with
  | nil => intro st; rfl
  | cons l ls ih =>
      intro st
      rw [List.foldl_cons, ih]
      by_cases h : pyStartsWith l "table " = true
      · rw [List.filter_cons, if_pos h, getLast?_cons_eq]
        cases hfl : (ls.filter (fun l => pyStartsWith l "table ")).getLast? with
        | some tl => rfl
        | none =>
            rw [procStripped_table_name, if_pos h]
      · rw [List.filter_cons, if_neg h]
        cases hfl : (ls.filter (fun l => pyStartsWith l "table ")).getLast? with
        | some tl => rfl
        | none =>
            rw [procStripped_table_name, if_neg h]

/-- Claim C8, counterexample: with two `table ` lines the parser keeps the
name of the last one, not the first: the assignment overwrites. -/
theorem claim_C8_counterexample :
    (parse_tmdl_table "table A\ntable B").map TableDescriptor.name ≠ some "A" ∧
    (parse_tmdl_table "table A\ntable B").map TableDescriptor.name = some "B" :=
  ⟨by decide, rfl⟩

/-- Claim C8 (amended): within a single TMDL text block the LAST line
beginning with `table ` defines the name of the returned descriptor (each
`table ` line overwrites the name; the first one does not win). -/
theorem claim_C8_amended (text : String) (d : TableDescriptor)
    (h : parse_tmdl_table text = some d) :
    ∃ tl, (((pySplitNl text).map pyStrip).filter
        (fun l => pyStartsWith l "table ")).getLast? = some tl ∧
      d.name = unquote_tmdl_name (pyDrop tl 6) := by
  have key := foldl_table_name ((pySplitNl text).map pyStrip) initState
  rw [List.foldl_map] at key
  simp only [parse_tmdl_table] at h
  split at h
  · exact absurd h (by simp)
  · rename_i n heq
    rw [Option.some.injEq] at h
    subst h
    rw [flush_column_table_name] at heq
    rw [heq] at key
    revert key
    cases hfl : ((((pySplitNl text).map pyStrip)).filter
        (fun l => pyStartsWith l "table ")).getLast? with
    | none => intro key; exact absurd key.symm (by simp [initState])
    | some tl =>
        intro key
        exact ⟨tl, rfl, (Option.some.injEq _ _).mp key.symm |>.symm⟩

/-- Claim C8, witness: the amended theorem applied at a concrete text with
two `table ` lines. -/
theorem claim_C8_witness :
    parse_tmdl_table "table A\ntable B" = some ⟨"B", [], false⟩ ∧
    ∃ tl, (((pySplitNl "table A\ntable B").map pyStrip).filter
        (fun l => pyStartsWith l "table ")).getLast? = some tl ∧
      ("B" : String) = unquote_tmdl_name (pyDrop tl 6) :=
  ⟨rfl, claim_C8_amended "table A\ntable B" ⟨"B", [], false⟩ rfl⟩

/-! ### Evaluation of the builder on encoded structured queries -/
theorem isEmpty_false_of_ne {α} (l : List α) (h : l ≠ []) : l.isEmpty = false := by
  cases l with
  | nil => exact absurd rfl h
  | cons a t => rfl

theorem sdata_append (a b : String) : (a ++ b).data = a.data ++ b.data := rfl

theorem dinsert_strPairs (m : List (String × String)) (k v : String) :
    dinsertBy pvBeq (strPairs m) (.str k) (.str v) =
      strPairs (dinsertBy (fun a b => a == b) m k v) := by
  induction m with
  | nil => rfl
  | cons kv m ih =>
      have hb : pvBeq (PVal.str kv.1) (PVal.str k) = (kv.1 == k) := rfl
      by_cases h : (kv.1 == k) = true
      · simp only [strPairs, List.map_cons, dinsertBy]
        rw [hb, if_pos h, if_pos h]
        rfl
      · simp only [strPairs] at ih
        simp only [strPairs, List.map_cons, dinsertBy]
        rw [hb, if_neg h, if_neg h]
        simp only [List.map_cons]
        exact congrArg _ ih

theorem lookup_strPairs (m : List (String × String)) (a : String) :
    lookupBy pvBeq (strPairs m) (.str a) =
      (lookupBy (fun a b => a == b) m a).map PVal.str := by
  induction m with
  | nil => rfl
  | cons kv m ih =>
      have hb : pvBeq (PVal.str kv.1) (PVal.str a) = (kv.1 == a) := rfl
      by_cases h : (kv.1 == a) = true
      · simp only [strPairs, List.map_cons, lookupBy]
        rw [hb, if_pos h, if_pos h]
        rfl
      · simp only [strPairs, List.map_cons, lookupBy]
        rw [hb, if_neg h, if_neg h]
        exact ih

theorem buildAliasMap_encode (fs : List (String × String)) :
    ∀ acc : List (String × String),
    buildAliasMap (strPairs acc) (fs.map encodeFromEntry) =
      .ok (strPairs (fs.foldl (fun m p => dinsertBy (fun a b => a == b) m p.1 p.2) acc)) := by
  induction fs with
  | nil => intro acc; rfl
  | cons f fs ih =>
      intro acc
      rw [List.map_cons]
      have step : buildAliasMap (strPairs acc) (encodeFromEntry f :: fs.map encodeFromEntry) =
          buildAliasMap (dinsertBy pvBeq (strPairs acc) (.str f.1) (.str f.2))
            (fs.map encodeFromEntry) := rfl
      rw [step, dinsert_strPairs, ih, List.foldl_cons]

theorem resolve_strPairs (m : List (String × String)) (a : String) :
    pyStr ((lookupBy pvBeq (strPairs m) (.str a)).getD (.str a)) =
      (lookupBy (fun a b => a == b) m a).getD a := by
  rw [lookup_strPairs]
  cases h : lookupBy (fun a b => a == b) m a with
  | none => rfl
  | some e => rfl

theorem aggFuncs_lookup (fid : Int) :
    (lookupBy pvBeq aggFuncs (.int fid)).getD "SUM" = aggName fid := by
  by_cases h0 : fid = 0
  · subst h0; rfl
  by_cases h1 : fid = 1
  · subst h1; rfl
  by_cases h2 : fid = 2
  · subst h2; rfl
  by_cases h3 : fid = 3
  · subst h3; rfl
  by_cases h4 : fid = 4
  · subst h4; rfl
  have e0 : pvBeq (PVal.int 0) (PVal.int fid) = false := by
    show ((0 : Int) == fid) = false
    exact beq_eq_false_iff_ne.mpr (Ne.symm h0)
  have e1 : pvBeq (PVal.int 1) (PVal.int fid) = false := by
    show ((1 : Int) == fid) = false
    exact beq_eq_false_iff_ne.mpr (Ne.symm h1)
  have e2 : pvBeq (PVal.int 2) (PVal.int fid) = false := by
    show ((2 : Int) == fid) = false
    exact beq_eq_false_iff_ne.mpr (Ne.symm h2)
  have e3 : pvBeq (PVal.int 3) (PVal.int fid) = false := by
    show ((3 : Int) == fid) = false
    exact beq_eq_false_iff_ne.mpr (Ne.symm h3)
  have e4 : pvBeq (PVal.int 4) (PVal.int fid) = false := by
    show ((4 : Int) == fid) = false
    exact beq_eq_false_iff_ne.mpr (Ne.symm h4)
  simp only [aggFuncs, lookupBy, e0, e1, e2, e3, e4, Bool.false_eq_true, if_false,
    Option.getD_none, aggName, h0, h1, h2, h3, h4]

theorem joinSep_data_ne (sep : String) (l : List String) (h : l ≠ [])
    (hall : ∀ x ∈ l, x.data ≠ []) : (joinSep sep l).data ≠ [] := by
  cases l with
  | nil => exact absurd rfl h
  | cons x xs =>
      cases xs with
      | nil => exact hall x (List.mem_cons_self x [])
      | cons y ys =>
          have hj : joinSep sep (x :: y :: ys) = x ++ sep ++ joinSep sep (y :: ys) := rfl
          rw [hj]
          intro hnil
          rw [sdata_append, sdata_append] at hnil
          rcases List.append_eq_nil.mp hnil with ⟨h1, _⟩
          rcases List.append_eq_nil.mp h1 with ⟨h2, _⟩
          exact hall x (List.mem_cons_self x _) h2

theorem renderPairs_data_ne (ms : List (String × String)) (h : ms ≠ []) :
    (renderPairs ms).data ≠ [] := by
  rw [renderPairs]
  apply joinSep_data_ne
  · cases ms with
    | nil => exact absurd rfl h
    | cons m ms' => simp
  · intro x hx
    rcases List.mem_map.mp hx with ⟨p, _, hp⟩
    rw [← hp, sdata_append, sdata_append]
    intro hnil
    rcases List.append_eq_nil.mp hnil with ⟨h1, _⟩
    rcases List.append_eq_nil.mp h1 with ⟨_, h2⟩
    exact absurd h2 (by decide)

theorem specClassify_cols_ne (fs : List (String × String)) (sels : List SelClause) :
    ∀ c ∈ (specClassify fs sels).1, c.data ≠ [] := by
  induction sels with
  | nil => intro c hc; exact absurd hc (by simp [specClassify])
  | cons s rest ih =>
      intro c hc
      cases s with
      | col a p =>
          rw [specClassify] at hc
          rcases List.mem_cons.mp hc with h | h
          · rw [h]
            intro hnil
            rw [sdata_append] at hnil
            rcases List.append_eq_nil.mp hnil with ⟨_, h2⟩
            exact absurd h2 (by decide)
          · exact ih c h
      | meas a p => exact ih c (by rw [specClassify] at hc; exact hc)
      | agg a p fid => exact ih c (by rw [specClassify] at hc; exact hc)

theorem selContribution_encode_col (fs : List (String × String)) (a p : String) :
    selContribution (strPairs (aliasAssoc fs)) (encodeSel (.col a p)) =
      .ok ([sq ++ resolveEntity fs a ++ sq ++ "[" ++ p ++ "]"], []) := by
  have h1 : selContribution (strPairs (aliasAssoc fs)) (encodeSel (.col a p)) =
      .ok ([sq ++ pyStr ((lookupBy pvBeq (strPairs (aliasAssoc fs)) (.str a)).getD (.str a))
        ++ sq ++ "[" ++ p ++ "]"], []) := rfl
  rw [h1, resolve_strPairs, resolveEntity]

theorem selContribution_encode_meas (fs : List (String × String)) (a p : String) :
    selContribution (strPairs (aliasAssoc fs)) (encodeSel (.meas a p)) =
      .ok ([], [(dq ++ p ++ dq, "[" ++ p ++ "]")]) := rfl

theorem selContribution_encode_agg (fs : List (String × String)) (a p : String) (fid : Int) :
    selContribution (strPairs (aliasAssoc fs)) (encodeSel (.agg a p fid)) =
      .ok ([], [(dq ++ aggName fid ++ " of " ++ p ++ dq,
        aggName fid ++ "(" ++ sq ++ resolveEntity fs a ++ sq ++ "[" ++ p ++ "]" ++ ")")]) := by
  have h1 : selContribution (strPairs (aliasAssoc fs)) (encodeSel (.agg a p fid)) =
      .ok ([], [(dq ++ ((lookupBy pvBeq aggFuncs (.int fid)).getD "SUM") ++ " of " ++ p ++ dq,
        ((lookupBy pvBeq aggFuncs (.int fid)).getD "SUM") ++ "(" ++ sq ++
          pyStr ((lookupBy pvBeq (strPairs (aliasAssoc fs)) (.str a)).getD (.str a)) ++
          sq ++ "[" ++ p ++ "]" ++ ")")]) := rfl
  rw [h1, resolve_strPairs, aggFuncs_lookup, resolveEntity]

theorem classify_encode (fs : List (String × String)) (sels : List SelClause) :
    classifyLoop (strPairs (aliasAssoc fs)) (sels.map encodeSel) = .ok (specClassify fs sels) := by
  induction sels with
  | nil => rfl
  | cons s rest ih =>
      have hstep : classifyLoop (strPairs (aliasAssoc fs)) ((s :: rest).map encodeSel) =
          (match selContribution (strPairs (aliasAssoc fs)) (encodeSel s) with
           | .error e => .error e
           | .ok pr =>
               match classifyLoop (strPairs (aliasAssoc fs)) (rest.map encodeSel) with
               | .error e => .error e
               | .ok pr2 => .ok (pr.1 ++ pr2.1, pr.2 ++ pr2.2)) := rfl
      rw [hstep, ih]
      cases s with
      | col a p =>
          rw [selContribution_encode_col]
          rfl
      | meas a p =>
          rw [selContribution_encode_meas]
          rfl
      | agg a p fid =>
          rw [selContribution_encode_agg]
          rfl

theorem daxAux (vt : String) (cols : List String) (ms : List (String × String))
    (hcols : ∀ c ∈ cols, c.data ≠ []) :
    daxFromClassified (.str vt) (cols, ms) = specDax vt (cols, ms) := by
  simp only [daxFromClassified, specDax]
  by_cases hv : vt = "card"
  · subst hv
    have hb : (pvBeq (PVal.str "card") (PVal.str "card") || cols.isEmpty && !ms.isEmpty) =
        true := by
      rw [show pvBeq (PVal.str "card") (PVal.str "card") = true from rfl]
      exact Bool.true_or _
    rw [if_pos hb, if_pos (Or.inl rfl)]
    cases ms with
    | nil => rfl
    | cons m ms2 =>
        have hne : (renderPairs (m :: ms2)).data.isEmpty = false :=
          isEmpty_false_of_ne _ (renderPairs_data_ne _ (by simp))
        have h2 : ¬((renderPairs (m :: ms2)).data.isEmpty = true) := by
          rw [hne]
          exact Bool.false_ne_true
        have h3 : ¬((m :: ms2 : List (String × String)) = []) := by simp
        rw [if_neg h2, if_neg h3]
  · have hbf : pvBeq (PVal.str vt) (PVal.str "card") = false := by
      show (vt == "card") = false
      exact beq_eq_false_iff_ne.mpr hv
    cases cols with
    | nil =>
        cases ms with
        | nil =>
            have hb2 : ¬((pvBeq (PVal.str vt) (PVal.str "card") ||
                ([] : List String).isEmpty && !([] : List (String × String)).isEmpty) = true) := by
              rw [hbf]
              decide
            have hp : ¬(vt = "card" ∨ ([] : List String) = [] ∧
                ([] : List (String × String)) ≠ []) := by
              intro h
              rcases h with h | ⟨_, h2⟩
              · exact hv h
              · exact h2 rfl
            rw [if_neg hb2, if_neg hp]
            rfl
        | cons m ms2 =>
            have hb : (pvBeq (PVal.str vt) (PVal.str "card") ||
                ([] : List String).isEmpty && !(m :: ms2).isEmpty) = true := by
              rw [hbf]
              rfl
            have hp : vt = "card" ∨ ([] : List String) = [] ∧ (m :: ms2) ≠ [] :=
              Or.inr ⟨rfl, by simp⟩
            rw [if_pos hb, if_pos hp]
            have hne : (renderPairs (m :: ms2)).data.isEmpty = false :=
              isEmpty_false_of_ne _ (renderPairs_data_ne _ (by simp))
            have h2 : ¬((renderPairs (m :: ms2)).data.isEmpty = true) := by
              rw [hne]
              exact Bool.false_ne_true
            have h3 : ¬((m :: ms2 : List (String × String)) = []) := by simp
            rw [if_neg h2, if_neg h3]
    | cons c cs =>
        have hcE : (joinSep ", " (c :: cs)).data.isEmpty = false :=
          isEmpty_false_of_ne _ (joinSep_data_ne ", " (c :: cs) (by simp) hcols)
        have hb2 : ¬((pvBeq (PVal.str vt) (PVal.str "card") ||
            (c :: cs).isEmpty && !ms.isEmpty) = true) := by
          rw [hbf]
          rw [show (c :: cs : List String).isEmpty = false from rfl]
          simp
        have hp : ¬(vt = "card" ∨ (c :: cs) = [] ∧ ms ≠ []) := by
          intro h
          rcases h with h | ⟨h1, _⟩
          · exact hv h
          · exact List.cons_ne_nil c cs h1
        rw [if_neg hb2, if_neg hp]
        cases ms with
        | nil =>
            have h1 : ¬((!(joinSep ", " (c :: cs)).data.isEmpty &&
                !(renderPairs ([] : List (String × String))).data.isEmpty) = true) := by
              rw [hcE]
              decide
            have h2 : (!(joinSep ", " (c :: cs)).data.isEmpty) = true := by
              rw [hcE]
              rfl
            have hp2 : ¬((c :: cs) ≠ [] ∧ ([] : List (String × String)) ≠ []) := by
              intro h
              exact h.2 rfl
            have hp3 : (c :: cs) ≠ [] := List.cons_ne_nil c cs
            rw [if_neg h1, if_neg hp2, if_pos h2, if_pos hp3]
        | cons m ms2 =>
            have hmE : (renderPairs (m :: ms2)).data.isEmpty = false :=
              isEmpty_false_of_ne _ (renderPairs_data_ne _ (by simp))
            have h1 : (!(joinSep ", " (c :: cs)).data.isEmpty &&
                !(renderPairs (m :: ms2)).data.isEmpty) = true := by
              rw [hcE, hmE]
              rfl
            have hp1 : (c :: cs) ≠ [] ∧ (m :: ms2 : List (String × String)) ≠ [] :=
              ⟨List.cons_ne_nil c cs, List.cons_ne_nil m ms2⟩
            rw [if_pos h1, if_pos hp1]

theorem daxFromClassified_spec (vt : String) (cm : List String × List (String × String))
    (hcols : ∀ c ∈ cm.1, c.data ≠ []) :
    daxFromClassified (.str vt) cm = specDax vt cm := by
  obtain ⟨cols, ms⟩ := cm
  exact daxAux vt cols ms hcols

theorem dax_encode (fs : List (String × String)) (sels : List SelClause) (vt : String)
    (hf : fs ≠ []) (hs : sels ≠ []) :
    prototype_to_dax (encodeProto fs sels) (.str vt) =
      .ok (specDax vt (specClassify fs sels)) := by
  cases fs with
  | nil => exact absurd rfl hf
  | cons f fs2 =>
      cases sels with
      | nil => exact absurd rfl hs
      | cons s sels2 =>
          have ham : buildAliasMap [] ((f :: fs2).map encodeFromEntry) =
              .ok (strPairs (aliasAssoc (f :: fs2))) := buildAliasMap_encode (f :: fs2) []
          have h0 : prototype_to_dax (encodeProto (f :: fs2) (s :: sels2)) (.str vt) =
              (match buildAliasMap [] ((f :: fs2).map encodeFromEntry) with
               | .error e => .error e
               | .ok am =>
                   match classifyLoop am ((s :: sels2).map encodeSel) with
                   | .error e => .error e
                   | .ok cm => .ok (daxFromClassified (.str vt) cm)) := rfl
          rw [h0, ham]
          show (match classifyLoop (strPairs (aliasAssoc (f :: fs2)))
              ((s :: sels2).map encodeSel) with
            | .error e => (.error e : Except PyErr (Option String))
            | .ok cm => .ok (daxFromClassified (.str vt) cm)) = _
          rw [classify_encode]
          show Except.ok (daxFromClassified (.str vt) (specClassify (f :: fs2) (s :: sels2))) = _
          exact congrArg Except.ok
            (daxFromClassified_spec vt (specClassify (f :: fs2) (s :: sels2))
              (specClassify_cols_ne (f :: fs2) (s :: sels2)))

/-- C2: the no-raise claim fails one structural level down: a From entry
without a `Name` key raises `KeyError` in `_prototype_to_dax`, and a part
whose path matches `definition/tables/*.tmdl` but lacks a `payload` key
raises `KeyError` in `tables_from_definition` — neither degrades to a
default. -/
theorem claim_C2_counterexample :
    prototype_to_dax (.obj [("From", .arr [.obj []]), ("Select", .arr [.obj []])])
        (.str "card") = .error .keyError ∧
    tables_from_definition (.obj [("parts",
        .arr [.obj [("path", .str "definition/tables/a.tmdl")]])]) =
      .error .keyError := ⟨rfl, rfl⟩

/-- C2 (amended): graceful degradation does hold at the envelope level —
a prototype query built from well-formed From/Select entries never raises
(absent or empty clauses degrade to an absent result), a visual with no
`objects` yields the empty title, and a definition with no `parts` yields
the empty table and visual lists — but not one level down (see the
counterexample). -/
theorem claim_C2_amended (fs : List (String × String)) (sels : List SelClause) (vt : String) :
    (∃ r, prototype_to_dax (encodeProto fs sels) (.str vt) = .ok r) ∧
    extract_title (.obj []) = .ok (.str "") ∧
    tables_from_definition (.obj []) = .ok [] ∧
    visuals_from_report_definition (.obj []) = .ok [] := by
  refine ⟨?_, rfl, rfl, rfl⟩
  cases fs with
  | nil => exact ⟨none, rfl⟩
  | cons f fs2 =>
      cases sels with
      | nil => exact ⟨none, rfl⟩
      | cons s sels2 =>
          exact ⟨_, dax_encode (f :: fs2) (s :: sels2) vt (by simp) (by simp)⟩

/-- C4: for every prototype query with non-empty From and Select built from
well-formed clauses, `_prototype_to_dax` returns exactly the spec-side
shape selection (`specDax`) applied to the spec-side classification
(`specClassify`): card or measure-only yields `EVALUATE ROW(pairs)` (absent
when there are no pairs), columns and pairs yield
`EVALUATE SUMMARIZECOLUMNS(cols, pairs)`, columns only yield
`EVALUATE DISTINCT(cols)`, and otherwise the result is absent. -/
theorem claim_C4 (fs : List (String × String)) (sels : List SelClause) (vt : String)
    (hf : fs ≠ []) (hs : sels ≠ []) :
    prototype_to_dax (encodeProto fs sels) (.str vt) =
      .ok (specDax vt (specClassify fs sels)) := dax_encode fs sels vt hf hs

/-- C4 witness: scenario 3 (barChart with a column and a measure yields the
SUMMARIZECOLUMNS query) and scenario 4 (card with two measures yields the
ROW query, in Select order). -/
theorem claim_C4_witness :
    prototype_to_dax (encodeProto [("t", "TableA")]
        [.col "t" "Col1", .meas "t" "MeasureA"]) (.str "barChart") =
      .ok (some ("EVALUATE SUMMARIZECOLUMNS(" ++ sq ++ "TableA" ++ sq ++ "[Col1], " ++
        dq ++ "MeasureA" ++ dq ++ ", [MeasureA])")) ∧
    prototype_to_dax (encodeProto [("t", "TableA")]
        [.meas "t" "M1", .meas "t" "M2"]) (.str "card") =
      .ok (some ("EVALUATE ROW(" ++ dq ++ "M1" ++ dq ++ ", [M1], " ++ dq ++ "M2" ++ dq ++
        ", [M2])")) := by
  constructor
  · rw [claim_C4 [("t", "TableA")] [.col "t" "Col1", .meas "t" "MeasureA"] "barChart"
      (by simp) (by simp)]
    rfl
  · rw [claim_C4 [("t", "TableA")] [.meas "t" "M1", .meas "t" "M2"] "card"
      (by simp) (by simp)]
    rfl

/-! ### Unrecognized Select entries -/
theorem selContribution_skip (am : List (PVal × PVal)) (kvs : List (String × PVal))
    (h1 : lookupBy (fun a b => a == b) kvs "Column" = none)
    (h2 : lookupBy (fun a b => a == b) kvs "Measure" = none)
    (h3 : lookupBy (fun a b => a == b) kvs "Aggregation" = none) :
    selContribution am (.obj kvs) = .ok ([], []) := by
  have hc1 : pvContains "Column" (.obj kvs) = .ok false := by
    show (Except.ok (lookupBy (fun a b => a == b) kvs "Column").isSome : Except PyErr Bool) = .ok false
    rw [h1]
    rfl
  have hc2 : pvContains "Measure" (.obj kvs) = .ok false := by
    show (Except.ok (lookupBy (fun a b => a == b) kvs "Measure").isSome : Except PyErr Bool) = .ok false
    rw [h2]
    rfl
  have hc3 : pvContains "Aggregation" (.obj kvs) = .ok false := by
    show (Except.ok (lookupBy (fun a b => a == b) kvs "Aggregation").isSome : Except PyErr Bool) = .ok false
    rw [h3]
    rfl
  simp only [selContribution, hc1, hc2, hc3]

theorem inferContribution_skip (kvs : List (String × PVal))
    (h1 : lookupBy (fun a b => a == b) kvs "Column" = none)
    (h2 : lookupBy (fun a b => a == b) kvs "Measure" = none)
    (h3 : lookupBy (fun a b => a == b) kvs "Aggregation" = none) :
    inferContribution (.obj kvs) = .ok [] := by
  have hc1 : pvContains "Column" (.obj kvs) = .ok false := by
    show (Except.ok (lookupBy (fun a b => a == b) kvs "Column").isSome : Except PyErr Bool) = .ok false
    rw [h1]
    rfl
  have hc2 : pvContains "Measure" (.obj kvs) = .ok false := by
    show (Except.ok (lookupBy (fun a b => a == b) kvs "Measure").isSome : Except PyErr Bool) = .ok false
    rw [h2]
    rfl
  have hc3 : pvContains "Aggregation" (.obj kvs) = .ok false := by
    show (Except.ok (lookupBy (fun a b => a == b) kvs "Aggregation").isSome : Except PyErr Bool) = .ok false
    rw [h3]
    rfl
  simp only [inferContribution, hc1, hc2, hc3]

theorem classifyLoop_insert (am : List (PVal × PVal)) (e : PVal)
    (he : selContribution am e = .ok ([], [])) (xs ys : List PVal) :
    classifyLoop am (xs ++ e :: ys) = classifyLoop am (xs ++ ys) := by
  induction xs with
  | nil =>
      show (match selContribution am e with
        | .error e2 => (.error e2 : Except PyErr (List String × List (String × String)))
        | .ok pr =>
            match classifyLoop am ys with
            | .error e2 => .error e2
            | .ok pr2 => .ok (pr.1 ++ pr2.1, pr.2 ++ pr2.2)) = classifyLoop am ys
      rw [he]
      cases h : classifyLoop am ys with
      | error e2 => rfl
      | ok pr2 => rfl
  | cons x xs ih =>
      show classifyLoop am (x :: (xs ++ e :: ys)) = classifyLoop am (x :: (xs ++ ys))
      have hL : classifyLoop am (x :: (xs ++ e :: ys)) =
          (match selContribution am x with
           | .error e2 => .error e2
           | .ok pr =>
               match classifyLoop am (xs ++ e :: ys) with
               | .error e2 => .error e2
               | .ok pr2 => .ok (pr.1 ++ pr2.1, pr.2 ++ pr2.2)) := rfl
      have hR : classifyLoop am (x :: (xs ++ ys)) =
          (match selContribution am x with
           | .error e2 => .error e2
           | .ok pr =>
               match classifyLoop am (xs ++ ys) with
               | .error e2 => .error e2
               | .ok pr2 => .ok (pr.1 ++ pr2.1, pr.2 ++ pr2.2)) := rfl
      rw [hL, hR, ih]

theorem inferLoop_insert (e : PVal) (he : inferContribution e = .ok []) (xs ys : List PVal) :
    inferLoop (xs ++ e :: ys) = inferLoop (xs ++ ys) := by
  induction xs with
  | nil =>
      show (match inferContribution e with
        | .error e2 => (.error e2 : Except PyErr (List ColInfo))
        | .ok cs =>
            match inferLoop ys with
            | .error e2 => .error e2
            | .ok cs2 => .ok (cs ++ cs2)) = inferLoop ys
      rw [he]
      cases h : inferLoop ys with
      | error e2 => rfl
      | ok cs2 => rfl
  | cons x xs ih =>
      show inferLoop (x :: (xs ++ e :: ys)) = inferLoop (x :: (xs ++ ys))
      have hL : inferLoop (x :: (xs ++ e :: ys)) =
          (match inferContribution x with
           | .error e2 => .error e2
           | .ok cs =>
               match inferLoop (xs ++ e :: ys) with
               | .error e2 => .error e2
               | .ok cs2 => .ok (cs ++ cs2)) := rfl
      have hR : inferLoop (x :: (xs ++ ys)) =
          (match inferContribution x with
           | .error e2 => .error e2
           | .ok cs =>
               match inferLoop (xs ++ ys) with
               | .error e2 => .error e2
               | .ok cs2 => .ok (cs ++ cs2)) := rfl
      rw [hL, hR, ih]

theorem dax_of_select (fromv vt : PVal) (L : List PVal) (hL : L.isEmpty = false) :
    prototype_to_dax (.obj [("From", fromv), ("Select", .arr L)]) vt =
      (if !pyTruthy fromv then .ok none
       else
         match pvIter fromv with
         | .error e => .error e
         | .ok froms =>
             match buildAliasMap [] froms with
             | .error e => .error e
             | .ok am =>
                 match classifyLoop am L with
                 | .error e => .error e
                 | .ok cm => .ok (daxFromClassified vt cm)) := by
  have e1 : prototype_to_dax (.obj [("From", fromv), ("Select", .arr L)]) vt =
      (if !pyTruthy fromv || !(!L.isEmpty) then .ok none
       else
         match pvIter fromv with
         | .error e => .error e
         | .ok froms =>
             match buildAliasMap [] froms with
             | .error e => .error e
             | .ok am =>
                 match classifyLoop am L with
                 | .error e => .error e
                 | .ok cm => .ok (daxFromClassified vt cm)) := rfl
  rw [e1, hL, show (!(!false)) = false from rfl, Bool.or_false]

theorem infer_of_select (fromv : PVal) (L : List PVal) :
    infer_columns_from_proto (.obj [("From", fromv), ("Select", .arr L)]) =
      (match pvIter fromv with
       | .error e => .error e
       | .ok froms =>
           match buildAliasMap [] froms with
           | .error e => .error e
           | .ok _ => inferLoop L) := rfl

/-- C10: a Select entry containing none of the keys Column, Measure, or
Aggregation contributes nothing to either transformation: deleting it from
the Select list (here: comparing the list with and without the entry
inserted at any position) changes neither the result of
`_prototype_to_dax` nor that of `_infer_columns_from_proto`, so the
inferred column list can be strictly shorter than the Select list. (The
Select list with the entry removed is required to stay non-empty, since an
otherwise-empty Select is separately short-circuited by
`_prototype_to_dax`.) -/
theorem claim_C10 (kvs : List (String × PVal)) (fromv vt : PVal) (xs ys : List PVal)
    (h1 : lookupBy (fun a b => a == b) kvs "Column" = none)
    (h2 : lookupBy (fun a b => a == b) kvs "Measure" = none)
    (h3 : lookupBy (fun a b => a == b) kvs "Aggregation" = none)
    (hne : xs ++ ys ≠ []) :
    prototype_to_dax (.obj [("From", fromv), ("Select", .arr (xs ++ .obj kvs :: ys))]) vt =
      prototype_to_dax (.obj [("From", fromv), ("Select", .arr (xs ++ ys))]) vt ∧
    infer_columns_from_proto
        (.obj [("From", fromv), ("Select", .arr (xs ++ .obj kvs :: ys))]) =
      infer_columns_from_proto (.obj [("From", fromv), ("Select", .arr (xs ++ ys))]) := by
  constructor
  · rw [dax_of_select fromv vt _ (isEmpty_false_of_ne _ (by simp)),
      dax_of_select fromv vt _ (isEmpty_false_of_ne _ hne)]
    cases hb : pyTruthy fromv with
    | false => rfl
    | true =>
        cases hi : pvIter fromv with
        | error e => rfl
        | ok froms =>
            show (match buildAliasMap [] froms with
              | .error e => (.error e : Except PyErr (Option String))
              | .ok am =>
                  match classifyLoop am (xs ++ PVal.obj kvs :: ys) with
                  | .error e => .error e
                  | .ok cm => .ok (daxFromClassified vt cm)) =
              (match buildAliasMap [] froms with
              | .error e => .error e
              | .ok am =>
                  match classifyLoop am (xs ++ ys) with
                  | .error e => .error e
                  | .ok cm => .ok (daxFromClassified vt cm))
            cases ham : buildAliasMap [] froms with
            | error e => rfl
            | ok am =>
                show (match classifyLoop am (xs ++ PVal.obj kvs :: ys) with
                  | .error e => (.error e : Except PyErr (Option String))
                  | .ok cm => .ok (daxFromClassified vt cm)) =
                  (match classifyLoop am (xs ++ ys) with
                  | .error e => .error e
                  | .ok cm => .ok (daxFromClassified vt cm))
                rw [classifyLoop_insert am (.obj kvs)
                  (selContribution_skip am kvs h1 h2 h3) xs ys]
  · rw [infer_of_select, infer_of_select]
    cases hi : pvIter fromv with
    | error e => rfl
    | ok froms =>
        show (match buildAliasMap [] froms with
          | .error e => (.error e : Except PyErr (List ColInfo))
          | .ok _ => inferLoop (xs ++ PVal.obj kvs :: ys)) =
          (match buildAliasMap [] froms with
          | .error e => .error e
          | .ok _ => inferLoop (xs ++ ys))
        cases ham : buildAliasMap [] froms with
        | error e => rfl
        | ok am =>
            show inferLoop (xs ++ PVal.obj kvs :: ys) = inferLoop (xs ++ ys)
            rw [inferLoop_insert (.obj kvs) (inferContribution_skip kvs h1 h2 h3) xs ys]

/-- C10 witness: a Select entry holding only a Name key is ignored between
a column reference and the end of the list, and the inferred column list
(one entry) is strictly shorter than the Select list (two entries). -/
theorem claim_C10_witness :
    (prototype_to_dax (.obj [("From", .arr [.obj [("Name", .str "t"), ("Entity", .str "TableA")]]),
        ("Select", .arr ([encodeSel (.col "t" "Col1")] ++ .obj [("Name", .str "x")] :: []))])
        (.str "tableEx") =
      prototype_to_dax (.obj [("From", .arr [.obj [("Name", .str "t"), ("Entity", .str "TableA")]]),
        ("Select", .arr ([encodeSel (.col "t" "Col1")] ++ []))]) (.str "tableEx") ∧
    infer_columns_from_proto
        (.obj [("From", .arr [.obj [("Name", .str "t"), ("Entity", .str "TableA")]]),
          ("Select", .arr ([encodeSel (.col "t" "Col1")] ++ .obj [("Name", .str "x")] :: []))]) =
      infer_columns_from_proto
        (.obj [("From", .arr [.obj [("Name", .str "t"), ("Entity", .str "TableA")]]),
          ("Select", .arr ([encodeSel (.col "t" "Col1")] ++ []))])) ∧
    infer_columns_from_proto
        (.obj [("From", .arr [.obj [("Name", .str "t"), ("Entity", .str "TableA")]]),
          ("Select", .arr ([encodeSel (.col "t" "Col1")] ++ .obj [("Name", .str "x")] :: []))]) =
      .ok [⟨.str "Col1", "String"⟩] :=
  ⟨claim_C10 [("Name", PVal.str "x")]
      (.arr [.obj [("Name", .str "t"), ("Entity", .str "TableA")]]) (.str "tableEx")
      [encodeSel (.col "t" "Col1")] [] rfl rfl rfl (by simp), rfl⟩

theorem protoDescriptor_some (vn t vt pn proto : PVal) (d : VisualDescriptor)
    (h : protoDescriptor vn t vt pn proto = .ok (some d)) : visOk d := by
  rw [protoDescriptor] at h
  by_cases hex : excludedVisualTypes.any (fun x => pvBeq vt x) = true
  · rw [if_pos hex] at h
    exact absurd h (by simp)
  · rw [if_neg hex] at h
    cases hd : prototype_to_dax proto vt with
    | error e =>
        rw [hd] at h
        exact Except.noConfusion h
    | ok o =>
        cases o with
        | none =>
            rw [hd] at h
            exact absurd h (by simp)
        | some s =>
            rw [hd] at h
            replace h : (if s.data.isEmpty then (.ok none : Except PyErr (Option VisualDescriptor))
                else
                  match infer_columns_from_proto proto with
                  | .error e => .error e
                  | .ok cols => .ok (some ⟨vn, t, vt, pn, s, cols⟩)) = .ok (some d) := h
            by_cases he : s.data.isEmpty = true
            · rw [if_pos he] at h
              exact absurd h (by simp)
            · rw [if_neg he] at h
              cases hic : infer_columns_from_proto proto with
              | error e =>
                  rw [hic] at h
                  exact Except.noConfusion h
              | ok cols =>
                  rw [hic] at h
                  replace h : Except.ok (some (⟨vn, t, vt, pn, s, cols⟩ : VisualDescriptor)) =
                      .ok (some d) := h
                  injection h with h2
                  injection h2 with h3
                  constructor
                  · rw [← h3]
                    show s.data ≠ []
                    intro hnil
                    rw [hnil] at he
                    exact he rfl
                  · rw [← h3]
                    show excludedVisualTypes.any (fun x => pvBeq vt x) = false
                    cases hval : excludedVisualTypes.any (fun x => pvBeq vt x) with
                    | false => rfl
                    | true => exact absurd hval hex

theorem svDescriptor_some (pn config sv : PVal) (d : VisualDescriptor)
    (h : svDescriptor pn config sv = .ok (some d)) : visOk d := by
  rw [svDescriptor] at h
  cases h1 : pvGet sv "visualType" (.str "unknown") with
  | error e =>
      rw [h1] at h
      exact Except.noConfusion h
  | ok vt =>
      rw [h1] at h
      replace h : (match pvGet config "name" (.str "unnamed") with
          | .error e => (.error e : Except PyErr (Option VisualDescriptor))
          | .ok visual_name =>
              match extract_title sv with
              | .error e => .error e
              | .ok title0 =>
                  let title := if pyTruthy title0 then title0 else visual_name
                  match pvGet sv "prototypeQuery" (.obj []) with
                  | .error e => .error e
                  | .ok proto => protoDescriptor visual_name title vt pn proto) =
          .ok (some d) := h
      cases h2 : pvGet config "name" (.str "unnamed") with
      | error e =>
          rw [h2] at h
          exact Except.noConfusion h
      | ok vn =>
          rw [h2] at h
          replace h : (match extract_title sv with
              | .error e => (.error e : Except PyErr (Option VisualDescriptor))
              | .ok title0 =>
                  let title := if pyTruthy title0 then title0 else vn
                  match pvGet sv "prototypeQuery" (.obj []) with
                  | .error e => .error e
                  | .ok proto => protoDescriptor vn title vt pn proto) = .ok (some d) := h
          cases h3 : extract_title sv with
          | error e =>
              rw [h3] at h
              exact Except.noConfusion h
          | ok t0 =>
              rw [h3] at h
              replace h : (match pvGet sv "prototypeQuery" (.obj []) with
                  | .error e => (.error e : Except PyErr (Option VisualDescriptor))
                  | .ok proto =>
                      protoDescriptor vn (if pyTruthy t0 then t0 else vn) vt pn proto) =
                  .ok (some d) := h
              cases h4 : pvGet sv "prototypeQuery" (.obj []) with
              | error e =>
                  rw [h4] at h
                  exact Except.noConfusion h
              | ok proto =>
                  rw [h4] at h
                  exact protoDescriptor_some vn (if pyTruthy t0 then t0 else vn) vt pn proto d h

theorem processContainer_some (page vc : PVal) (d : VisualDescriptor)
    (h : processContainer page vc = .ok (some d)) : visOk d := by
  rw [processContainer] at h
  cases h1 : pvGet vc "config" (.str "\x7b\x7d") with
  | error e =>
      rw [h1] at h
      exact Except.noConfusion h
  | ok configRaw =>
      rw [h1] at h
      replace h : (match json_loads configRaw with
          | .error e => (.error e : Except PyErr (Option VisualDescriptor))
          | .ok config =>
              match pvGet config "singleVisual" (.obj []) with
              | .error e => .error e
              | .ok sv =>
                  if !pyTruthy sv then .ok none
                  else svDescriptor page config sv) = .ok (some d) := h
      cases h2 : json_loads configRaw with
      | error e =>
          rw [h2] at h
          exact Except.noConfusion h
      | ok config =>
          rw [h2] at h
          replace h : (match pvGet config "singleVisual" (.obj []) with
              | .error e => (.error e : Except PyErr (Option VisualDescriptor))
              | .ok sv =>
                  if !pyTruthy sv then .ok none
                  else svDescriptor page config sv) = .ok (some d) := h
          cases h3 : pvGet config "singleVisual" (.obj []) with
          | error e =>
              rw [h3] at h
              exact Except.noConfusion h
          | ok sv =>
              rw [h3] at h
              replace h : (if !pyTruthy sv then (.ok none : Except PyErr (Option VisualDescriptor))
                  else svDescriptor page config sv) = .ok (some d) := h
              cases h4 : pyTruthy sv with
              | false =>
                  rw [h4] at h
                  exact absurd h (by simp)
              | true =>
                  rw [h4] at h
                  replace h : svDescriptor page config sv = .ok (some d) := h
                  exact svDescriptor_some page config sv d h

theorem processVCs_mem (page : PVal) (l : List PVal) (vs : List VisualDescriptor)
    (h : processVCs page l = .ok vs) : ∀ v ∈ vs, visOk v := by
  induction l generalizing vs with
  | nil =>
      replace h : (Except.ok [] : Except PyErr (List VisualDescriptor)) = .ok vs := h
      injection h with h2
      intro v hv
      rw [← h2] at hv
      exact absurd hv (List.not_mem_nil v)
  | cons vc rest ih =>
      replace h : (match processContainer page vc with
          | .error e => (.error e : Except PyErr (List VisualDescriptor))
          | .ok none => processVCs page rest
          | .ok (some d) => (processVCs page rest).map (fun ds => d :: ds)) = .ok vs := h
      cases hc : processContainer page vc with
      | error e =>
          rw [hc] at h
          exact Except.noConfusion h
      | ok o =>
          cases o with
          | none =>
              rw [hc] at h
              exact ih vs h
          | some dd =>
              rw [hc] at h
              replace h : (processVCs page rest).map (fun ds => dd :: ds) = .ok vs := h
              cases hr : processVCs page rest with
              | error e =>
                  rw [hr] at h
                  exact Except.noConfusion h
              | ok ds =>
                  rw [hr] at h
                  replace h : Except.ok (dd :: ds) = .ok vs := h
                  injection h with h2
                  intro v hv
                  rw [← h2] at hv
                  rcases List.mem_cons.mp hv with h4 | h4
                  · rw [h4]
                    exact processContainer_some page vc dd hc
                  · exact ih ds hr v h4

theorem processSection_mem (sec : PVal) (vs : List VisualDescriptor)
    (h : processSection sec = .ok vs) : ∀ v ∈ vs, visOk v := by
  rw [processSection] at h
  cases h1 : pvGet sec "displayName" (.str "Page") with
  | error e =>
      rw [h1] at h
      exact Except.noConfusion h
  | ok page =>
      rw [h1] at h
      replace h : (match pvGet sec "visualContainers" (.arr []) with
          | .error e => (.error e : Except PyErr (List VisualDescriptor))
          | .ok vcs =>
              match pvIter vcs with
              | .error e => .error e
              | .ok vcl => processVCs page vcl) = .ok vs := h
      cases h2 : pvGet sec "visualContainers" (.arr []) with
      | error e =>
          rw [h2] at h
          exact Except.noConfusion h
      | ok vcs =>
          rw [h2] at h
          replace h : (match pvIter vcs with
              | .error e => (.error e : Except PyErr (List VisualDescriptor))
              | .ok vcl => processVCs page vcl) = .ok vs := h
          cases h3 : pvIter vcs with
          | error e =>
              rw [h3] at h
              exact Except.noConfusion h
          | ok vcl =>
              rw [h3] at h
              exact processVCs_mem page vcl vs h

theorem processSections_mem (l : List PVal) (vs : List VisualDescriptor)
    (h : processSections l = .ok vs) : ∀ v ∈ vs, visOk v := by
  induction l generalizing vs with
  | nil =>
      replace h : (Except.ok [] : Except PyErr (List VisualDescriptor)) = .ok vs := h
      injection h with h2
      intro v hv
      rw [← h2] at hv
      exact absurd hv (List.not_mem_nil v)
  | cons s rest ih =>
      replace h : (match processSection s with
          | .error e => (.error e : Except PyErr (List VisualDescriptor))
          | .ok ds =>
              match processSections rest with
              | .error e => .error e
              | .ok ds2 => .ok (ds ++ ds2)) = .ok vs := h
      cases hs : processSection s with
      | error e =>
          rw [hs] at h
          exact Except.noConfusion h
      | ok ds =>
          rw [hs] at h
          cases hr : processSections rest with
          | error e =>
              rw [hr] at h
              exact Except.noConfusion h
          | ok ds2 =>
              rw [hr] at h
              replace h : Except.ok (ds ++ ds2) = .ok vs := h
              injection h with h2
              intro v hv
              rw [← h2] at hv
              rcases List.mem_append.mp hv with h4 | h4
              · exact processSection_mem s ds hs v h4
              · exact ih ds2 hr v h4

theorem visuals_mem (defn : PVal) (vs : List VisualDescriptor)
    (h : visuals_from_report_definition defn = .ok vs) : ∀ v ∈ vs, visOk v := by
  rw [visuals_from_report_definition] at h
  cases h1 : pvGet defn "parts" (.arr []) with
  | error e =>
      rw [h1] at h
      exact Except.noConfusion h
  | ok partsv =>
      rw [h1] at h
      replace h : (match pvIter partsv with
          | .error e => (.error e : Except PyErr (List VisualDescriptor))
          | .ok parts =>
              match findReportJson parts with
              | .error e => .error e
              | .ok rj =>
                  match rj with
                  | none => .ok []
                  | some report_json =>
                      if !pyTruthy report_json then .ok []
                      else
                        match pvGet report_json "sections" (.arr []) with
                        | .error e => .error e
                        | .ok sectionsv =>
                            match pvIter sectionsv with
                            | .error e => .error e
                            | .ok sections => processSections sections) = .ok vs := h
      cases h2 : pvIter partsv with
      | error e =>
          rw [h2] at h
          exact Except.noConfusion h
      | ok parts =>
          rw [h2] at h
          replace h : (match findReportJson parts with
              | .error e => (.error e : Except PyErr (List VisualDescriptor))
              | .ok rj =>
                  match rj with
                  | none => .ok []
                  | some report_json =>
                      if !pyTruthy report_json then .ok []
                      else
                        match pvGet report_json "sections" (.arr []) with
                        | .error e => .error e
                        | .ok sectionsv =>
                            match pvIter sectionsv with
                            | .error e => .error e
                            | .ok sections => processSections sections) = .ok vs := h
          cases h3 : findReportJson parts with
          | error e =>
              rw [h3] at h
              exact Except.noConfusion h
          | ok rj =>
              rw [h3] at h
              cases rj with
              | none =>
                  replace h : (Except.ok [] : Except PyErr (List VisualDescriptor)) = .ok vs := h
                  injection h with h2
                  intro v hv
                  rw [← h2] at hv
                  exact absurd hv (List.not_mem_nil v)
              | some report_json =>
                  replace h : (if !pyTruthy report_json
                      then (.ok [] : Except PyErr (List VisualDescriptor))
                      else
                        match pvGet report_json "sections" (.arr []) with
                        | .error e => .error e
                        | .ok sectionsv =>
                            match pvIter sectionsv with
                            | .error e => .error e
                            | .ok sections => processSections sections) = .ok vs := h
                  cases h4 : pyTruthy report_json with
                  | false =>
                      rw [h4] at h
                      replace h : (Except.ok [] : Except PyErr (List VisualDescriptor)) =
                          .ok vs := h
                      injection h with h2
                      intro v hv
                      rw [← h2] at hv
                      exact absurd hv (List.not_mem_nil v)
                  | true =>
                      rw [h4] at h
                      replace h : (match pvGet report_json "sections" (.arr []) with
                          | .error e => (.error e : Except PyErr (List VisualDescriptor))
                          | .ok sectionsv =>
                              match pvIter sectionsv with
                              | .error e => .error e
                              | .ok sections => processSections sections) = .ok vs := h
                      cases h5 : pvGet report_json "sections" (.arr []) with
                      | error e =>
                          rw [h5] at h
                          exact Except.noConfusion h
                      | ok sectionsv =>
                          rw [h5] at h
                          replace h : (match pvIter sectionsv with
                              | .error e => (.error e : Except PyErr (List VisualDescriptor))
                              | .ok sections => processSections sections) = .ok vs := h
                          cases h6 : pvIter sectionsv with
                          | error e =>
                              rw [h6] at h
                              exact Except.noConfusion h
                          | ok sections =>
                              rw [h6] at h
                              exact processSections_mem sections vs h

theorem dax_falsy (fromv selv vt : PVal) (extra : List (String × PVal))
    (hfs : pyTruthy fromv = false ∨ pyTruthy selv = false) :
    prototype_to_dax (.obj (("From", fromv) :: ("Select", selv) :: extra)) vt = .ok none := by
  have e1 : prototype_to_dax (.obj (("From", fromv) :: ("Select", selv) :: extra)) vt =
      (if !pyTruthy fromv || !pyTruthy selv then .ok none
       else
         match pvIter fromv with
         | .error e => .error e
         | .ok froms =>
             match buildAliasMap [] froms with
             | .error e => .error e
             | .ok am =>
                 match pvIter selv with
                 | .error e => .error e
                 | .ok sels =>
                     match classifyLoop am sels with
                     | .error e => .error e
                     | .ok cm => .ok (daxFromClassified vt cm)) := rfl
  rw [e1]
  rcases hfs with hf | hs
  · rw [hf]
    rfl
  · rw [hs, show (!false) = true from rfl, Bool.or_true]
    rfl

theorem protoDescriptor_none (vn t vt pn proto : PVal)
    (hd : prototype_to_dax proto vt = .ok none) :
    protoDescriptor vn t vt pn proto = .ok none := by
  rw [protoDescriptor]
  by_cases hex : excludedVisualTypes.any (fun x => pvBeq vt x) = true
  · rw [if_pos hex]
  · rw [if_neg hex, hd]

/-- C5: every descriptor emitted by `visuals_from_report_definition` has a
non-empty DAX query and a visual type outside the excluded set
(slicer, textbox, shape, image, actionButton); and a prototype query whose
From or Select is falsy (empty or missing) yields an absent DAX query, so
the visual-container loop drops the visual without emitting a descriptor. -/
theorem claim_C5 (defn : PVal) (vs : List VisualDescriptor)
    (h : visuals_from_report_definition defn = .ok vs) :
    (∀ v ∈ vs, visOk v) ∧
    (∀ (fromv selv vt : PVal) (extra : List (String × PVal)),
      pyTruthy fromv = false ∨ pyTruthy selv = false →
      prototype_to_dax (.obj (("From", fromv) :: ("Select", selv) :: extra)) vt = .ok none ∧
      ∀ (vn t pn : PVal),
        protoDescriptor vn t vt pn (.obj (("From", fromv) :: ("Select", selv) :: extra)) =
          .ok none) := by
  constructor
  · exact visuals_mem defn vs h
  · intro fromv selv vt extra hfs
    refine ⟨dax_falsy fromv selv vt extra hfs, ?_⟩
    intro vn t pn
    exact protoDescriptor_none vn t vt pn _ (dax_falsy fromv selv vt extra hfs)

set_option maxRecDepth 10000 in
/-- C5 witness: the sample report produces exactly the barChart descriptor
(non-empty query, type not excluded), and an empty From drops the visual:
its DAX query is absent and the loop body returns no descriptor. -/
theorem claim_C5_witness :
    visuals_from_report_definition sampleReportDef = .ok [sampleVisual] ∧
    (∀ v ∈ [sampleVisual], visOk v) ∧
    prototype_to_dax (.obj [("From", .arr []), ("Select", .arr [encodeSel (.col "t" "Col1")])])
        (.str "barChart") = .ok none :=
  ⟨rfl, (claim_C5 sampleReportDef [sampleVisual] rfl).1,
    ((claim_C5 sampleReportDef [sampleVisual] rfl).2 (.arr [])
      (.arr [encodeSel (.col "t" "Col1")]) (.str "barChart") [] (Or.inl rfl)).1⟩

theorem specPartEntry_obj (kvs : List (String × PVal)) :
    specPartEntry (.obj kvs) =
      (match lookupBy (fun a b => a == b) kvs "path" with
       | some (.str path) =>
           if pyStartsWith path "definition/tables/" && pyEndsWith path ".tmdl" then
             match lookupBy (fun a b => a == b) kvs "payload" with
             | some payload =>
                 match b64decode payload with
                 | .ok bytes =>
                     match utf8DecodeStr bytes with
                     | .ok text =>
                         match parse_tmdl_table text with
                         | some t => if t.isHidden then none else some ⟨t.name, t.columns⟩
                         | none => none
                     | .error _ => none
                 | .error _ => none
             | none => none
           else none
       | _ => none) := rfl

theorem tablePartEntry_spec (part : PVal) (o : Option RestTable)
    (h : tablePartEntry part = .ok o) : specPartEntry part = o := by
  rw [tablePartEntry] at h
  cases part with
  | null => exact Except.noConfusion h
  | bool b => exact Except.noConfusion h
  | int n => exact Except.noConfusion h
  | num m ex => exact Except.noConfusion h
  | str s => exact Except.noConfusion h
  | arr xs => exact Except.noConfusion h
  | obj kvs =>
      replace h : (match (lookupBy (fun a b => a == b) kvs "path").getD (.str "") with
          | .str path =>
              if pyStartsWith path "definition/tables/" && pyEndsWith path ".tmdl" then
                match pvIndexS (.obj kvs) "payload" with
                | .error e => (.error e : Except PyErr (Option RestTable))
                | .ok payload =>
                    match b64decode payload with
                    | .error e => .error e
                    | .ok bytes =>
                        match utf8DecodeStr bytes with
                        | .error e => .error e
                        | .ok text =>
                            match parse_tmdl_table text with
                            | some t =>
                                .ok (if t.isHidden then none else some ⟨t.name, t.columns⟩)
                            | none => .ok none
              else .ok none
          | _ => .error .attributeError) = .ok o := h
      cases hlp : lookupBy (fun a b => a == b) kvs "path" with
      | none =>
          rw [hlp] at h
          replace h : (Except.ok (none : Option RestTable)) = .ok o := h
          injection h with h2
          have e : specPartEntry (.obj kvs) = none := by
            rw [specPartEntry_obj, hlp]
          exact e.trans h2
      | some pathv =>
          rw [hlp] at h
          cases pathv with
          | null => exact Except.noConfusion h
          | bool b => exact Except.noConfusion h
          | int n => exact Except.noConfusion h
          | num m ex => exact Except.noConfusion h
          | arr xs => exact Except.noConfusion h
          | obj kvs2 => exact Except.noConfusion h
          | str path =>
              replace h : (if pyStartsWith path "definition/tables/" && pyEndsWith path ".tmdl"
                  then
                    match pvIndexS (.obj kvs) "payload" with
                    | .error e => (.error e : Except PyErr (Option RestTable))
                    | .ok payload =>
                        match b64decode payload with
                        | .error e => .error e
                        | .ok bytes =>
                            match utf8DecodeStr bytes with
                            | .error e => .error e
                            | .ok text =>
                                match parse_tmdl_table text with
                                | some t =>
                                    .ok (if t.isHidden then none else some ⟨t.name, t.columns⟩)
                                | none => .ok none
                  else .ok none) = .ok o := h
              have e1 : specPartEntry (.obj kvs) =
                  (if pyStartsWith path "definition/tables/" && pyEndsWith path ".tmdl" then
                     match lookupBy (fun a b => a == b) kvs "payload" with
                     | some payload =>
                         match b64decode payload with
                         | .ok bytes =>
                             match utf8DecodeStr bytes with
                             | .ok text =>
                                 match parse_tmdl_table text with
                                 | some t =>
                                     if t.isHidden then none else some ⟨t.name, t.columns⟩
                                 | none => none
                             | .error _ => none
                         | .error _ => none
                     | none => none
                   else none) := by
                rw [specPartEntry_obj, hlp]
              by_cases hm : (pyStartsWith path "definition/tables/" &&
                  pyEndsWith path ".tmdl") = true
              · rw [if_pos hm] at h
                replace h : (match (match lookupBy (fun a b => a == b) kvs "payload" with
                      | some x => (.ok x : Except PyErr PVal)
                      | none => .error .keyError) with
                    | .error e => (.error e : Except PyErr (Option RestTable))
                    | .ok payload =>
                        match b64decode payload with
                        | .error e => .error e
                        | .ok bytes =>
                            match utf8DecodeStr bytes with
                            | .error e => .error e
                            | .ok text =>
                                match parse_tmdl_table text with
                                | some t =>
                                    .ok (if t.isHidden then none else some ⟨t.name, t.columns⟩)
                                | none => .ok none) = .ok o := h
                cases hpl : lookupBy (fun a b => a == b) kvs "payload" with
                | none =>
                    rw [hpl] at h
                    exact Except.noConfusion h
                | some payload =>
                    rw [hpl] at h
                    replace h : (match b64decode payload with
                        | .error e => (.error e : Except PyErr (Option RestTable))
                        | .ok bytes =>
                            match utf8DecodeStr bytes with
                            | .error e => .error e
                            | .ok text =>
                                match parse_tmdl_table text with
                                | some t =>
                                    .ok (if t.isHidden then none else some ⟨t.name, t.columns⟩)
                                | none => .ok none) = .ok o := h
                    have e2 : specPartEntry (.obj kvs) =
                        (match b64decode payload with
                         | .ok bytes =>
                             match utf8DecodeStr bytes with
                             | .ok text =>
                                 match parse_tmdl_table text with
                                 | some t =>
                                     if t.isHidden then none else some ⟨t.name, t.columns⟩
                                 | none => none
                             | .error _ => none
                         | .error _ => none) := by
                      rw [e1, if_pos hm, hpl]
                    cases hb : b64decode payload with
                    | error e =>
                        rw [hb] at h
                        exact Except.noConfusion h
                    | ok bytes =>
                        rw [hb] at h
                        replace h : (match utf8DecodeStr bytes with
                            | .error e => (.error e : Except PyErr (Option RestTable))
                            | .ok text =>
                                match parse_tmdl_table text with
                                | some t =>
                                    .ok (if t.isHidden then none else some ⟨t.name, t.columns⟩)
                                | none => .ok none) = .ok o := h
                        cases hu : utf8DecodeStr bytes with
                        | error e =>
                            rw [hu] at h
                            exact Except.noConfusion h
                        | ok text =>
                            rw [hu] at h
                            replace h : (match parse_tmdl_table text with
                                | some t =>
                                    (.ok (if t.isHidden then none else some ⟨t.name, t.columns⟩) :
                                      Except PyErr (Option RestTable))
                                | none => .ok none) = .ok o := h
                            have e2b : specPartEntry (.obj kvs) =
                                (match utf8DecodeStr bytes with
                                 | .ok text =>
                                     match parse_tmdl_table text with
                                     | some t =>
                                         if t.isHidden then none else some ⟨t.name, t.columns⟩
                                     | none => none
                                 | .error _ => none) := by
                              rw [e2, hb]
                            have e3 : specPartEntry (.obj kvs) =
                                (match parse_tmdl_table text with
                                 | some t =>
                                     if t.isHidden then none else some ⟨t.name, t.columns⟩
                                 | none => none) := by
                              rw [e2b, hu]
                            cases hp : parse_tmdl_table text with
                            | none =>
                                rw [hp] at h
                                replace h : (Except.ok (none : Option RestTable)) = .ok o := h
                                injection h with h2
                                have e4 : specPartEntry (.obj kvs) = none := by
                                  rw [e3, hp]
                                exact e4.trans h2
                            | some t =>
                                rw [hp] at h
                                replace h : Except.ok
                                    (if t.isHidden then none else some
                                      (⟨t.name, t.columns⟩ : RestTable)) = .ok o := h
                                injection h with h2
                                have e4 : specPartEntry (.obj kvs) =
                                    (if t.isHidden then none else some ⟨t.name, t.columns⟩) := by
                                  rw [e3, hp]
                                exact e4.trans h2
              · rw [if_neg hm] at h
                replace h : (Except.ok (none : Option RestTable)) = .ok o := h
                injection h with h2
                have e2 : specPartEntry (.obj kvs) = none := by
                  rw [e1, if_neg hm]
                exact e2.trans h2

theorem tablesLoop_spec (l : List PVal) (res : List RestTable)
    (h : tablesLoop l = .ok res) : res = l.filterMap specPartEntry := by
  induction l generalizing res with
  | nil =>
      replace h : (Except.ok [] : Except PyErr (List RestTable)) = .ok res := h
      injection h with h2
      rw [← h2, List.filterMap_nil]
  | cons p rest ih =>
      replace h : (match tablePartEntry p with
          | .error e => (.error e : Except PyErr (List RestTable))
          | .ok none => tablesLoop rest
          | .ok (some t) => (tablesLoop rest).map (fun ts => t :: ts)) = .ok res := h
      cases hp : tablePartEntry p with
      | error e =>
          rw [hp] at h
          exact Except.noConfusion h
      | ok o =>
          have hspec := tablePartEntry_spec p o hp
          cases o with
          | none =>
              rw [hp] at h
              replace h : tablesLoop rest = .ok res := h
              rw [List.filterMap_cons, hspec]
              exact ih res h
          | some t =>
              rw [hp] at h
              replace h : (tablesLoop rest).map (fun ts => t :: ts) = .ok res := h
              cases hr : tablesLoop rest with
              | error e =>
                  rw [hr] at h
                  exact Except.noConfusion h
              | ok ts =>
                  rw [hr] at h
                  replace h : Except.ok (t :: ts) = .ok res := h
                  injection h with h2
                  rw [← h2, List.filterMap_cons, hspec, ih ts hr]

/-- C7: whenever `tables_from_definition` succeeds, its result is exactly
the spec-side description: one `\x7bname, columns\x7d` entry, in part
order, per part whose path matches `definition/tables/*.tmdl` and whose
decoded payload parses to a non-hidden table; hidden tables are excluded
entirely and the isHidden flag is dropped from the output shape. -/
theorem claim_C7 (defn : PVal) (res : List RestTable)
    (h : tables_from_definition defn = .ok res) : res = specTables defn := by
  rw [tables_from_definition] at h
  cases defn with
  | null => exact Except.noConfusion h
  | bool b => exact Except.noConfusion h
  | int n => exact Except.noConfusion h
  | num m ex => exact Except.noConfusion h
  | str s => exact Except.noConfusion h
  | arr xs => exact Except.noConfusion h
  | obj kvs =>
      replace h : (match pvIter ((lookupBy (fun a b => a == b) kvs "parts").getD (.arr [])) with
          | .error e => (.error e : Except PyErr (List RestTable))
          | .ok parts => tablesLoop parts) = .ok res := h
      have es : specTables (.obj kvs) =
          (match lookupBy (fun a b => a == b) kvs "parts" with
           | some (.arr parts) => parts.filterMap specPartEntry
           | _ => []) := rfl
      cases hlp : lookupBy (fun a b => a == b) kvs "parts" with
      | none =>
          rw [hlp] at h
          replace h : (Except.ok [] : Except PyErr (List RestTable)) = .ok res := h
          injection h with h2
          rw [← h2, es, hlp]
      | some pv =>
          rw [hlp] at h
          cases pv with
          | null => exact Except.noConfusion h
          | bool b => exact Except.noConfusion h
          | int n => exact Except.noConfusion h
          | num m ex => exact Except.noConfusion h
          | arr parts =>
              replace h : tablesLoop parts = .ok res := h
              rw [es, hlp]
              exact tablesLoop_spec parts res h
          | str s =>
              replace h : tablesLoop (s.data.map (fun c => PVal.str (String.mk [c]))) =
                  .ok res := h
              cases hd : s.data with
              | nil =>
                  rw [hd] at h
                  replace h : (Except.ok [] : Except PyErr (List RestTable)) = .ok res := h
                  injection h with h2
                  rw [← h2, es, hlp]
              | cons c cs =>
                  rw [hd] at h
                  exact Except.noConfusion h
          | obj kvs2 =>
              cases kvs2 with
              | nil =>
                  replace h : (Except.ok [] : Except PyErr (List RestTable)) = .ok res := h
                  injection h with h2
                  rw [← h2, es, hlp]
              | cons kv rest2 => exact Except.noConfusion h

set_option maxRecDepth 4000 in
/-- C7 witness: on the sample envelope the extractor returns only the
visible table, projected to name and columns; the hidden table and the
non-matching part are excluded, matching the spec-side description. -/
theorem claim_C7_witness :
    tables_from_definition sampleTablesDef = .ok [⟨"Items", [⟨"Qty", "Int64"⟩]⟩] ∧
    ([⟨"Items", [⟨"Qty", "Int64"⟩]⟩] : List RestTable) = specTables sampleTablesDef :=
  ⟨rfl, claim_C7 sampleTablesDef [⟨"Items", [⟨"Qty", "Int64"⟩]⟩] rfl⟩

end TapPowerBi
